import Mathlib

/-!
Shallow embedding of the Bitcoin payment core of the rad-crowdfunding
repository (Convex backend).  Amounts and exchange rates are modelled as
rationals, timestamps (milliseconds) as integers, database tables as lists
of rows in insertion order.  A Convex `.first()` query on an index is
modelled as `List.find?` and `.patch` on the found document as an update of
the first matching row.  Every definition follows the TypeScript source
named in its comment.
-/

namespace RadBitcoin

/-- Status union of `pending_bitcoin_payments.status` (convex/schema). -/
inductive PaymentStatus where
  | initialized
  | pending
  | confirmed
  | expired
  deriving DecidableEq, Repr

/-- `BITCOIN_NETWORK` configuration value. -/
inductive Network where
  | mainnet
  | testnet
  deriving DecidableEq, Repr

/-- `bitcoinConfirmations` from convex/bitcoin/types.ts: 3 mainnet, 6 testnet. -/
def bitcoinConfirmations : Network → Nat
  | .mainnet => 3
  | .testnet => 6

/-- `btcAmountTolerance = 0.00001` from convex/bitcoin/types.ts. -/
def btcAmountTolerance : ℚ := 1 / 100000

/-- `minDonationAmount = 1` from convex/types.ts. -/
def minDonationAmount : ℚ := 1

/-- `maxDonationAmount = 100_000` from convex/types.ts. -/
def maxDonationAmount : ℚ := 100000

/-- `maxPlayerNameLength = 50` from convex/types.ts. -/
def maxPlayerNameLength : Nat := 50

/-- `maxMessageLength = 500` from convex/types.ts. -/
def maxMessageLength : Nat := 500

/-- `paymentMetadataValidator` object from convex/schema.ts:
`player_name : string | null`, `use_player_name : boolean`,
optional `message`. -/
structure PaymentMetadata where
  player_name : Option String
  use_player_name : Bool
  message : Option String
  deriving DecidableEq, Repr

/-- A row of the `donations` table (convex/schema.ts); `_creationTime` is
not modelled. -/
structure Donation where
  amount : ℚ
  payment_id : String
  display_name : String
  payment_method : String
  message : Option String
  deriving DecidableEq, Repr

/-- A row of the `pending_bitcoin_payments` table (convex/schema.ts). -/
structure PendingPayment where
  session_id : String
  address : String
  expected_amount_btc : ℚ
  expected_amount_usd : ℚ
  exchange_rate : ℚ
  derivation_index : Nat
  metadata : Option PaymentMetadata
  status : PaymentStatus
  txid : Option String
  detected_at : Option ℤ
  scheduled_job_id : Option String
  created_at : ℤ
  expires_at : ℤ
  deriving DecidableEq, Repr

/-- `getDisplayName` from convex/types.ts.  JavaScript truthiness of
`metadata?.use_player_name && metadata.player_name`: the player name is
used only when `use_player_name` is true and `player_name` is a non-null,
non-empty string. -/
def getDisplayName (metadata : Option PaymentMetadata) (fallback : String) : String :=
  match metadata with
  | none => fallback
  | some m =>
    if m.use_player_name then
      match m.player_name with
      | some s => if s = "" then fallback else s
      | none => fallback
    else fallback

/-- `validateDonationAmount` from convex/types.ts: throws below
`minDonationAmount` or above `maxDonationAmount`. -/
def validateDonationAmount (amount : ℚ) : Except String Unit :=
  if amount < minDonationAmount then
    .error "Amount must be at least $1"
  else if amount > maxDonationAmount then
    .error "Amount must not exceed $100,000"
  else
    .ok ()

/-- `validatePlayerName` from convex/types.ts.  A null or empty name passes
(JavaScript `if (!playerName) return`). -/
def validatePlayerName (playerName : Option String) : Except String Unit :=
  match playerName with
  | none => .ok ()
  | some s =>
    if s = "" then .ok ()
    else if s.length > maxPlayerNameLength then
      .error "Player name must not exceed 50 characters"
    else if s.trim.length = 0 then
      .error "Player name cannot be empty or whitespace only"
    else .ok ()

/-- `validateMessage` from convex/types.ts. -/
def validateMessage (message : Option String) : Except String Unit :=
  match message with
  | none => .ok ()
  | some s =>
    if s = "" then .ok ()
    else if s.length > maxMessageLength then
      .error "Message must not exceed 500 characters"
    else if s.trim.length = 0 then
      .error "Message cannot be empty or whitespace only"
    else .ok ()

/-- Character class `[a-z0-9]` (the `bech32Charset` regular expression of
convex/bitcoin/types.ts). -/
def isBech32CharsetChar (c : Char) : Bool :=
  ('a' ≤ c ∧ c ≤ 'z') ∨ ('0' ≤ c ∧ c ≤ '9')

/-- Character class `[1bio]` (the `invalidBech32Chars` regular expression of
convex/bitcoin/types.ts). -/
def isInvalidBech32Char (c : Char) : Bool :=
  c = '1' ∨ c = 'b' ∨ c = 'i' ∨ c = 'o'

/-- `validateBitcoinAddress` from convex/bitcoin/types.ts: prefix `bc1` or
`tb1` by network (`address.startsWith(prefix)`, stated on the character
list), length in [42, 90], body (`address.slice(3)`) in `[a-z0-9]` and
free of the invalid bech32 characters `1 b i o`. -/
def validateBitcoinAddress (address : String) (network : Network) : Except String Unit :=
  let prefixStr := match network with
    | .mainnet => "bc1"
    | .testnet => "tb1"
  if ¬ (address.toList.take 3 = prefixStr.toList) then
    .error "Invalid Bitcoin address: wrong network prefix"
  else if address.toList.length < 42 ∨ address.toList.length > 90 then
    .error "Invalid Bitcoin address length"
  else
    let addressBody := address.toList.drop 3
    if ¬ addressBody.all isBech32CharsetChar then
      .error "Invalid Bitcoin address characters"
    else if addressBody.any isInvalidBech32Char then
      .error "Invalid Bitcoin address: contains invalid bech32 characters"
    else .ok ()

/-- `fetchBtcPriceInternal` handler from convex/bitcoin/exchange.ts.
Each element of `outcomes` is one exchange API's outcome: `some q` when the
request succeeded and a price was extracted and parsed, `none` when the
request failed, returned a non-ok response, or no price string was
extracted.  The collected prices are sorted ascending and the middle value
(or the mean of the two middle values) is returned; with no price at all
the handler throws. -/
def fetchBtcPriceInternal (outcomes : List (Option ℚ)) : Except String ℚ :=
  let prices := outcomes.filterMap id
  if prices.length > 0 then
    let sorted := prices.mergeSort (· ≤ ·)
    let mid := sorted.length / 2
    if sorted.length % 2 = 0 then
      match sorted[mid - 1]?, sorted[mid]? with
      | some lower, some upper => .ok ((lower + upper) / 2)
      | _, _ => .error "Invalid median calculation: array index out of bounds"
    else
      match sorted[mid]? with
      | some value => .ok value
      | none => .error "Invalid median calculation: array index out of bounds"
  else
    .error "Failed to fetch BTC price from any exchange"

/-- The spec's words for the Oracle result (§4.2): sort the successful
values; the median is the middle value, or the average of the two middle
values for even counts.  Stated separately from `fetchBtcPriceInternal` so
the implementation can be compared against it. -/
def medianSpec (values : List ℚ) : ℚ :=
  let sorted := values.mergeSort (· ≤ ·)
  let n := sorted.length
  if n % 2 = 1 then sorted.getD (n / 2) 0
  else (sorted.getD (n / 2 - 1) 0 + sorted.getD (n / 2) 0) / 2

/-- Pending payment lookup `.withIndex('by_address', …).first()`. -/
def findPendingByAddress (pendings : List PendingPayment) (address : String) :
    Option PendingPayment :=
  pendings.find? (fun p => decide (p.address = address))

/-- `ctx.db.patch` on the document found by the `by_address` index: update
the first row carrying the address. -/
def patchPendingByAddress (pendings : List PendingPayment) (address : String)
    (f : PendingPayment → PendingPayment) : List PendingPayment :=
  match pendings with
  | [] => []
  | p :: rest =>
    if p.address = address then f p :: rest
    else p :: patchPendingByAddress rest address f

/-- `getNextDerivationIndex` from convex/bitcoin/mutations.ts, acting on the
`bitcoin_config` row `next_derivation_index` (`none` = row absent).  First
call inserts the row with value 1 and returns 0; later calls return the
stored value and patch it to value + 1. -/
def getNextDerivationIndex (counter : Option Nat) : Option Nat × Nat :=
  match counter with
  | none => (some 1, 0)
  | some v => (some (v + 1), v)

/-- `checkExistingPaymentSession` from convex/bitcoin/mutations.ts: the
first row matching the `by_session_amount` index, returned when its
`expires_at` is in the future; the row's status is not consulted. -/
def checkExistingPaymentSession (pendings : List PendingPayment)
    (session_id : String) (amount : ℚ) (now : ℤ) : Option (String × Nat) :=
  match pendings.find? (fun p =>
      decide (p.session_id = session_id ∧ p.expected_amount_usd = amount)) with
  | some existing =>
    if existing.expires_at > now then
      some (existing.address, existing.derivation_index)
    else none
  | none => none

/-- `validateSessionOwnsAddress` from convex/bitcoin/mutations.ts. -/
def validateSessionOwnsAddress (pendings : List PendingPayment)
    (session_id address : String) (now : ℤ) : Except String Bool :=
  match findPendingByAddress pendings address with
  | none => .error "Address not found in pending payments"
  | some payment =>
    if payment.session_id ≠ session_id then
      .error "Session does not own this address"
    else if payment.status = .initialized ∧ payment.expires_at ≤ now then
      .error "Payment session has expired"
    else .ok true

/-- `createPendingBitcoinPayment` from convex/bitcoin/mutations.ts: insert
a fresh row with status `initialized` and `expires_at = now + 24 h`. -/
def createPendingBitcoinPayment (pendings : List PendingPayment)
    (session_id address : String)
    (expected_amount_btc expected_amount_usd exchange_rate : ℚ)
    (derivation_index : Nat) (metadata : Option PaymentMetadata) (now : ℤ) :
    List PendingPayment :=
  pendings ++ [{
    session_id, address, expected_amount_btc, expected_amount_usd,
    exchange_rate, derivation_index, metadata,
    status := .initialized, txid := none, detected_at := none,
    scheduled_job_id := none, created_at := now,
    expires_at := now + 86400000 }]

/-- `updatePendingPaymentJobId` from convex/bitcoin/mutations.ts: patch the
scheduled job id; throws when the address has no row. -/
def updatePendingPaymentJobId (pendings : List PendingPayment)
    (address job_id : String) : Except String (List PendingPayment) :=
  match findPendingByAddress pendings address with
  | none => .error "Pending payment not found for address"
  | some _ =>
    .ok (patchPendingByAddress pendings address
      (fun p => { p with scheduled_job_id := some job_id }))

/-- `updatePendingPaymentWithTx` from convex/bitcoin/mutations.ts: on an
`initialized` or `pending` row, patch `txid`, `detected_at := Date.now()`
and upgrade `initialized` to `pending`; on a missing, `confirmed` or
`expired` row return null (second component `false`) without mutating. -/
def updatePendingPaymentWithTx (pendings : List PendingPayment)
    (address txid : String) (now : ℤ) : List PendingPayment × Bool :=
  match findPendingByAddress pendings address with
  | none => (pendings, false)
  | some payment =>
    if payment.status ≠ .initialized ∧ payment.status ≠ .pending then
      (pendings, false)
    else
      let newStatus :=
        if payment.status = .initialized then PaymentStatus.pending
        else payment.status
      (patchPendingByAddress pendings address (fun p =>
        { p with txid := some txid, detected_at := some now,
                 status := newStatus }), true)

/-- `updatePendingPaymentStatus` from convex/bitcoin/mutations.ts: patch the
status unconditionally when the row exists. -/
def updatePendingPaymentStatus (pendings : List PendingPayment)
    (address : String) (status : PaymentStatus) : List PendingPayment × Bool :=
  match findPendingByAddress pendings address with
  | none => (pendings, false)
  | some _ =>
    (patchPendingByAddress pendings address (fun p => { p with status := status }),
     true)

/-- `markPaymentExpired` from convex/bitcoin/mutations.ts: client-signalled
expiry; only an `initialized` row owned by the session is patched to
`expired`. -/
def markPaymentExpired (pendings : List PendingPayment)
    (address session_id : String) : Except String (List PendingPayment × Bool) :=
  match findPendingByAddress pendings address with
  | none => .ok (pendings, false)
  | some payment =>
    if payment.session_id ≠ session_id then
      .error "Session does not own this address"
    else if payment.status = .initialized then
      .ok (patchPendingByAddress pendings address
        (fun p => { p with status := .expired }), true)
    else .ok (pendings, false)

/-- `createDonationFromPayment` from convex/bitcoin/mutations.ts: when a
donation with this `payment_id` exists return `false` and change nothing,
else insert one row and return `true`. -/
def createDonationFromPayment (donations : List Donation) (address : String)
    (amount_usd : ℚ) (display_name : String) (message : Option String) :
    List Donation × Bool :=
  match donations.find? (fun d => decide (d.payment_id = address)) with
  | some _ => (donations, false)
  | none =>
    (donations ++ [{
      amount := amount_usd, payment_id := address, display_name,
      payment_method := "bitcoin", message }], true)

/-- `cleanupExpiredPendingPayments` from convex/bitcoin/mutations.ts, run
hourly: mark overdue `initialized` and `pending` rows `expired`, delete
`confirmed` rows, delete `expired` rows whose `expires_at` is more than
seven days past.  Returns the new table and the four counts. -/
def cleanupExpiredPendingPayments (pendings : List PendingPayment) (now : ℤ) :
    List PendingPayment × (Nat × Nat × Nat × Nat) :=
  let sevenDaysAgo := now - 7 * 24 * 60 * 60 * 1000
  let expiredInitialized := pendings.filter (fun p =>
    decide (p.status = .initialized ∧ p.expires_at < now))
  let s1 := pendings.map (fun p =>
    if p.status = .initialized ∧ p.expires_at < now then
      { p with status := .expired } else p)
  let expiredPending := s1.filter (fun p =>
    decide (p.status = .pending ∧ p.expires_at < now))
  let s2 := s1.map (fun p =>
    if p.status = .pending ∧ p.expires_at < now then
      { p with status := .expired } else p)
  let confirmedRows := s2.filter (fun p => decide (p.status = .confirmed))
  let s3 := s2.filter (fun p => decide (¬ p.status = .confirmed))
  let oldExpired := s3.filter (fun p =>
    decide (p.status = .expired ∧ p.expires_at < sevenDaysAgo))
  let s4 := s3.filter (fun p =>
    decide (¬ (p.status = .expired ∧ p.expires_at < sevenDaysAgo)))
  (s4, (expiredInitialized.length, expiredPending.length,
        confirmedRows.length, oldExpired.length))

/-- State of one token bucket of the `@convex-dev/rate-limiter` component
(value = tokens available at time `ts`). -/
structure TokenBucket where
  value : ℚ
  ts : ℤ
  deriving DecidableEq, Repr

/-- Modelled from the spec: the `generateAddress` rate limit of
convex/bitcoin/actions.ts is a token bucket, rate 1 token / 300 s,
capacity 1, keyed by `session_id`; the rate-limiter component's own code
is not part of the repository.  A fresh key starts with a full bucket;
`limit` refills at the configured rate, consumes one token when available
and reports whether it did.  The source discards this verdict (the call's
return value is unused), so a failed consume rejects nothing. -/
def tokenBucketLimit (bucket : Option TokenBucket) (now : ℤ) : TokenBucket × Bool :=
  let refilled : TokenBucket :=
    match bucket with
    | none => { value := 1, ts := now }
    | some b =>
      { value := min 1 (b.value + ((now - b.ts : ℤ) : ℚ) * (1 / 300000)),
        ts := now }
  if 1 ≤ refilled.value then
    ({ refilled with value := refilled.value - 1 }, true)
  else (refilled, false)

/-- Bucket lookup in the limiter's per-key store. -/
def lookupBucket (buckets : List (String × TokenBucket)) (key : String) :
    Option TokenBucket :=
  (buckets.find? (fun kb => decide (kb.1 = key))).map Prod.snd

/-- Write-back of a key's bucket in the limiter's per-key store. -/
def setBucket (buckets : List (String × TokenBucket)) (key : String)
    (b : TokenBucket) : List (String × TokenBucket) :=
  match buckets with
  | [] => [(key, b)]
  | kb :: rest =>
    if kb.1 = key then (key, b) :: rest else kb :: setBucket rest key b

/-- The database state the Bitcoin payment core touches: the `donations`
table, the `pending_bitcoin_payments` table, the `bitcoin_config` counter
row, and the `generateAddress` token buckets of the rate-limiter
component. -/
structure DBState where
  donations : List Donation
  pendings : List PendingPayment
  counter : Option Nat
  genBuckets : List (String × TokenBucket)
  deriving Repr

/-- `BlockchainPaymentResult` from convex/bitcoin/types.ts: the probe's
discriminated union. -/
inductive BlockchainPaymentResult where
  | apiFailed
  | noPayment
  | pendingTx (tx_hash : String) (amount_btc : ℚ) (confirmations : Nat)
  | paid (tx_hash : String) (amount_btc : ℚ) (confirmations : Nat)
  deriving DecidableEq, Repr

/-- Outcome of one `monitorSinglePayment` invocation: the database state it
leaves behind, whether it queried the blockchain, and whether it
rescheduled itself. -/
structure MonitorEffect where
  state : DBState
  probed : Bool
  rescheduled : Bool
  deriving Repr

/-- `monitorSinglePayment` from convex/bitcoin/monitoring.ts.  The probe's
answer (`probe`) and the wall clock (`now`) are inputs; `probed` is set
exactly when control reaches the `checkBlockchainPayment` call. -/
def monitorSinglePayment (s : DBState) (address : String)
    (expected_amount_btc : ℚ) (now : ℤ) (probe : BlockchainPaymentResult)
    (network : Network) : MonitorEffect :=
  match findPendingByAddress s.pendings address with
  | none => { state := s, probed := false, rescheduled := false }
  | some pendingPayment =>
    if pendingPayment.status = .confirmed then
      { state := s, probed := false, rescheduled := false }
    else if pendingPayment.status = .expired then
      { state := s, probed := false, rescheduled := false }
    else if now > pendingPayment.expires_at then
      { state := { s with pendings :=
          (updatePendingPaymentStatus s.pendings address .expired).1 },
        probed := false, rescheduled := false }
    else
      let requiredConfirmations := bitcoinConfirmations network
      match probe with
      | .apiFailed => { state := s, probed := true, rescheduled := true }
      | .noPayment => { state := s, probed := true, rescheduled := true }
      | .pendingTx tx_hash _ _ =>
        let pendings' :=
          if pendingPayment.txid ≠ some tx_hash then
            (updatePendingPaymentWithTx s.pendings address tx_hash now).1
          else s.pendings
        { state := { s with pendings := pendings' },
          probed := true, rescheduled := true }
      | .paid tx_hash amount_btc confirmations =>
        if confirmations < requiredConfirmations then
          let pendings' :=
            if pendingPayment.txid ≠ some tx_hash then
              (updatePendingPaymentWithTx s.pendings address tx_hash now).1
            else s.pendings
          { state := { s with pendings := pendings' },
            probed := true, rescheduled := true }
        else
          let difference := |amount_btc - expected_amount_btc|
          if difference > btcAmountTolerance ∧
              amount_btc < expected_amount_btc then
            { state := { s with pendings :=
                (updatePendingPaymentStatus s.pendings address .expired).1 },
              probed := true, rescheduled := false }
          else
            let amount_usd := amount_btc * pendingPayment.exchange_rate
            let display_name := getDisplayName pendingPayment.metadata "Anonymous"
            let donations' := (createDonationFromPayment s.donations address
              amount_usd display_name
              (pendingPayment.metadata.bind (·.message))).1
            let pendings' :=
              (updatePendingPaymentStatus s.pendings address .confirmed).1
            { state := { s with donations := donations', pendings := pendings' },
              probed := true, rescheduled := false }

/-- Return value of `generateBitcoinAddress`
(`GenerateBitcoinAddressResult` in convex/bitcoin/types.ts). -/
structure GenerateBitcoinAddressResult where
  address : String
  amount_btc : ℚ
  amount_usd : ℚ
  exchange_rate : ℚ
  derivation_index : Nat
  deriving DecidableEq, Repr

/-- Outcome of one `generateBitcoinAddress` action: the database state it
leaves behind, its return value or error, whether the rate limiter
consumed a token, and whether a monitor job was scheduled. -/
structure GenerateEffect where
  state : DBState
  result : Except String GenerateBitcoinAddressResult
  tokenConsumed : Bool
  scheduled : Bool
  deriving Repr

/-- The guard `if (metadata?.player_name) validatePlayerName(...)` of
`generateBitcoinAddress` — JavaScript truthiness, so a null or empty name
skips the call. -/
def playerNameCheck (metadata : Option PaymentMetadata) : Except String Unit :=
  match metadata with
  | some m =>
    match m.player_name with
    | some pn => if pn = "" then Except.ok () else validatePlayerName (some pn)
    | none => Except.ok ()
  | none => Except.ok ()

/-- The guard `if (metadata?.message) validateMessage(...)` of
`generateBitcoinAddress`. -/
def messageCheck (metadata : Option PaymentMetadata) : Except String Unit :=
  match metadata with
  | some m =>
    match m.message with
    | some msg => if msg = "" then Except.ok () else validateMessage (some msg)
    | none => Except.ok ()
  | none => Except.ok ()

/-- `generateBitcoinAddress` from convex/bitcoin/actions.ts.  `price` is
the oracle's answer (`getBtcPrice`, assumed successful), `derive` the
BIP84 address deriver `deriveBip84Address` applied to the master key and
network — modelled as an abstract function of the index, faithful to the
spec's "Deterministic: same (key, index, network) ⇒ same address" since
key and network are process-wide constants — and `jobId` the id handed
back by `ctx.scheduler.runAfter`.  The rate limiter runs before the
existing-session check; its verdict is discarded by the source. -/
def generateBitcoinAddress (s : DBState) (amount : ℚ) (session_id : String)
    (metadata : Option PaymentMetadata) (price : ℚ) (derive : Nat → String)
    (jobId : String) (now : ℤ) : GenerateEffect :=
  match validateDonationAmount amount with
  | .error e =>
    { state := s, result := .error e, tokenConsumed := false, scheduled := false }
  | .ok _ =>
  match playerNameCheck metadata with
  | .error e =>
    { state := s, result := .error e, tokenConsumed := false, scheduled := false }
  | .ok _ =>
  match messageCheck metadata with
  | .error e =>
    { state := s, result := .error e, tokenConsumed := false, scheduled := false }
  | .ok _ =>
  let limited := tokenBucketLimit (lookupBucket s.genBuckets session_id) now
  let s1 : DBState :=
    { s with genBuckets := setBucket s.genBuckets session_id limited.1 }
  let amount_btc := amount / price
  match checkExistingPaymentSession s1.pendings session_id amount now with
  | some existing =>
    { state := s1,
      result := .ok { address := existing.1, amount_btc, amount_usd := amount,
                      exchange_rate := price, derivation_index := existing.2 },
      tokenConsumed := limited.2, scheduled := false }
  | none =>
    let bumped := getNextDerivationIndex s1.counter
    let derivation_index := bumped.2
    let address := derive derivation_index
    let s2 : DBState :=
      { s1 with counter := bumped.1,
                pendings := createPendingBitcoinPayment s1.pendings session_id
                  address amount_btc amount price derivation_index metadata now }
    match updatePendingPaymentJobId s2.pendings address jobId with
    | .error e =>
      { state := s2,
        result := .error ("Failed to generate Bitcoin address: " ++ e),
        tokenConsumed := limited.2, scheduled := true }
    | .ok pendings3 =>
      { state := { s2 with pendings := pendings3 },
        result := .ok { address, amount_btc, amount_usd := amount,
                        exchange_rate := price, derivation_index },
        tokenConsumed := limited.2, scheduled := true }

/-- Public result union `CheckBitcoinPaymentResult` from
convex/bitcoin/types.ts. -/
inductive CheckBitcoinPaymentResult where
  | notPaid
  | paidResult (tx_hash : String) (amount_btc : ℚ)
      (confirmations required_confirmations : Nat)
  deriving DecidableEq, Repr

/-- Outcome of one `checkBitcoinPayment` action. -/
structure CheckEffect where
  state : DBState
  result : Except String CheckBitcoinPaymentResult
  deriving Repr

/-- `checkBitcoinPayment` from convex/bitcoin/actions.ts.  `probe` is the
answer of `checkBlockchainPayment`, `price` the fresh oracle quote.  Every
error thrown inside the handler's try block is rethrown with the prefix
"Failed to check Bitcoin payment: ".  The `checkPayment` fixed-window rate
limiter is invoked before the probe but its verdict is discarded by the
source and its state (kept in the rate-limiter component) influences
nothing modelled here. -/
def checkBitcoinPayment (s : DBState) (address session_id : String)
    (expected_btc_amount : Option ℚ) (metadata : Option PaymentMetadata)
    (now : ℤ) (probe : BlockchainPaymentResult) (price : ℚ)
    (network : Network) : CheckEffect :=
  match validateBitcoinAddress address network with
  | .error e =>
    { state := s, result := .error ("Failed to check Bitcoin payment: " ++ e) }
  | .ok _ =>
  match validateSessionOwnsAddress s.pendings session_id address now with
  | .error e =>
    { state := s, result := .error ("Failed to check Bitcoin payment: " ++ e) }
  | .ok _ =>
  match probe with
  | .apiFailed => { state := s, result := .ok .notPaid }
  | .noPayment => { state := s, result := .ok .notPaid }
  | .pendingTx tx_hash amount_btc confirmations =>
    { state := s, result := .ok (.paidResult tx_hash amount_btc confirmations
        (bitcoinConfirmations network)) }
  | .paid tx_hash amount_btc confirmations =>
    let requiredConfirmations := bitcoinConfirmations network
    if confirmations < requiredConfirmations then
      { state := s, result := .ok (.paidResult tx_hash amount_btc confirmations
          requiredConfirmations) }
    else
      -- `if (expected_btc_amount)`: JavaScript truthiness, so the check is
      -- skipped when the optional argument is omitted or equal to 0.
      match (match expected_btc_amount with
             | none => Except.ok ()
             | some expected =>
               if expected = 0 then Except.ok ()
               else if |amount_btc - expected| > btcAmountTolerance ∧
                   amount_btc < expected then
                 Except.error
                   "Underpayment detected: payment amount does not match expected amount"
               else Except.ok ()) with
      | .error e =>
        { state := s, result := .error ("Failed to check Bitcoin payment: " ++ e) }
      | .ok _ =>
      let amount_usd := amount_btc * price
      match validateDonationAmount amount_usd with
      | .error e =>
        { state := s, result := .error ("Failed to check Bitcoin payment: " ++ e) }
      | .ok _ =>
      let display_name := getDisplayName metadata "Anonymous"
      let donations' := (createDonationFromPayment s.donations address
        amount_usd display_name (metadata.bind (·.message))).1
      let pendings' := (updatePendingPaymentStatus s.pendings address .confirmed).1
      { state := { s with donations := donations', pendings := pendings' },
        result := .ok (.paidResult tx_hash amount_btc confirmations
          requiredConfirmations) }

/-- One invocation of a system entry point: the public actions
`generateBitcoinAddress` and `checkBitcoinPayment`, the public mutation
`markPaymentExpired`, a `monitorSinglePayment` wake-up, or the hourly
`cleanupExpiredPendingPayments` cron.  Environment answers (clock, oracle
price, probe result, derived address, job id) ride on the constructor. -/
inductive Op where
  | generateOp (amount : ℚ) (session_id : String)
      (metadata : Option PaymentMetadata) (price : ℚ) (derive : Nat → String)
      (jobId : String) (now : ℤ)
  | monitorOp (address : String) (expected_amount_btc : ℚ) (now : ℤ)
      (probe : BlockchainPaymentResult) (network : Network)
  | checkOp (address session_id : String) (expected_btc_amount : Option ℚ)
      (metadata : Option PaymentMetadata) (now : ℤ)
      (probe : BlockchainPaymentResult) (price : ℚ) (network : Network)
  | markExpiredOp (address session_id : String)
  | cleanupOp (now : ℤ)

/-- The database state after one entry-point invocation.  A Convex mutation
that throws is rolled back, so a failing `markPaymentExpired` leaves the
state unchanged; the actions return the partial state they reached. -/
def step (s : DBState) : Op → DBState
  | .generateOp amount session_id metadata price derive jobId now =>
    (generateBitcoinAddress s amount session_id metadata price derive jobId now).state
  | .monitorOp address expected now probe network =>
    (monitorSinglePayment s address expected now probe network).state
  | .checkOp address session_id expected metadata now probe price network =>
    (checkBitcoinPayment s address session_id expected metadata now probe price network).state
  | .markExpiredOp address session_id =>
    match markPaymentExpired s.pendings address session_id with
    | .ok r => { s with pendings := r.1 }
    | .error _ => s
  | .cleanupOp now =>
    { s with pendings := (cleanupExpiredPendingPayments s.pendings now).1 }

/-- Whether an invocation is a `checkBitcoinPayment` call: the one entry
point whose confirm branch patches the status without consulting it. -/
def Op.isCheck : Op → Bool
  | .checkOp _ _ _ _ _ _ _ _ => true
  | _ => false

/-- A sequence of entry-point invocations. -/
def runOps (s : DBState) (ops : List Op) : DBState := ops.foldl step s

/-- The deployment's empty initial database. -/
def initState : DBState :=
  { donations := [], pendings := [], counter := none, genBuckets := [] }

/-- A state the system can be in: reached from the empty database by some
sequence of entry-point invocations. -/
def Reachable (s : DBState) : Prop := ∃ ops, runOps initState ops = s

/-- The number a `bitcoin_config` counter state stands for (0 when the row
was never created). -/
def counterVal : Option Nat → Nat
  | none => 0
  | some v => v

/-- Counter state after `k` calls of `getNextDerivationIndex`. -/
def iterateCounter (counter : Option Nat) : Nat → Option Nat
  | 0 => counter
  | k + 1 => (getNextDerivationIndex (iterateCounter counter k)).1

/-- The value call number `k` (0-based) of `getNextDerivationIndex`
returns. -/
def nthDerivationResult (counter : Option Nat) (k : Nat) : Nat :=
  (getNextDerivationIndex (iterateCounter counter k)).2

/-- Rows of the ledger credited to one payment id. -/
def donationCount (donations : List Donation) (address : String) : Nat :=
  (donations.filter (fun d => decide (d.payment_id = address))).length

/-- `createDonationFromPayment` repeated once per element of `args`
(amount, display name, message), always for the same address: the shape of
the N concurrent insert attempts of Monitor and CheckPayment. -/
def runCreateDonations (donations : List Donation) (address : String) :
    List (ℚ × String × Option String) → List Donation
  | [] => donations
  | (amt, name, msg) :: rest =>
    runCreateDonations (createDonationFromPayment donations address amt name
      msg).1 address rest

/-- The pointwise effect of one `cleanupExpiredPendingPayments` run on a
surviving row: overdue `initialized` and `pending` rows become `expired`,
all other rows are untouched. -/
def cleanupTransform (now : ℤ) (p : PendingPayment) : PendingPayment :=
  let p1 := if p.status = PaymentStatus.initialized ∧ p.expires_at < now then
    { p with status := PaymentStatus.expired } else p
  if p1.status = PaymentStatus.pending ∧ p1.expires_at < now then
    { p1 with status := PaymentStatus.expired } else p1

/-! ### Concrete instances used by witnesses and counterexamples -/

/-- A well-formed mainnet bech32-shaped receive address (42 characters). -/
def addr42 : String := "bc1qqqqqqqqqqqqqqqqqqqqqqqqqqqqqqqqqqqqqqq"

/-- A pending row created at time 0 for a $100 donation quoted at 50 000
USD/BTC and expecting 1 BTC (integer amounts keep kernel evaluation easy). -/
def rowInit : PendingPayment :=
  { session_id := "s1", address := addr42, expected_amount_btc := 1,
    expected_amount_usd := 100, exchange_rate := 50000, derivation_index := 0,
    metadata := none, status := .initialized, txid := none, detected_at := none,
    scheduled_job_id := some "job1", created_at := 0, expires_at := 86400000 }

/-- A one-row database holding `rowInit`. -/
def sInit : DBState :=
  { donations := [], pendings := [rowInit], counter := some 1, genBuckets := [] }

/-- The same row after transaction t1 was first detected at time 5. -/
def rowPendingTx : PendingPayment :=
  { rowInit with status := .pending, txid := some "t1", detected_at := some 5 }

/-- A one-row database holding `rowPendingTx`. -/
def sPendingTx : DBState := { sInit with pendings := [rowPendingTx] }

/-- The constant deriver used in concrete traces. -/
def deriveConst : Nat → String := fun _ => addr42

/-- The row after it expired (the monitor timed it out unpaid). -/
def rowExpired : PendingPayment := { rowInit with status := .expired }

/-- A one-row database holding `rowExpired`. -/
def sExpiredManual : DBState := { sInit with pendings := [rowExpired] }

/-- A late client poll against a fully confirmed probe answer
(0.001 BTC received, 3 confirmations, price 50 000). -/
def opCheckLate : Op :=
  .checkOp addr42 "s1" none none 86400002 (.paid "t1" (1/1000) 3) 50000 .mainnet

/-! ## Theorems -/

lemma patch_of_find_none (l : List PendingPayment) (b : String)
    (f : PendingPayment → PendingPayment)
    (h : findPendingByAddress l b = none) : patchPendingByAddress l b f = l := by
  rw [findPendingByAddress, List.find?_eq_none] at h
  induction l with
  | nil => rfl
  | cons p rest ih =>
    have hpb : ¬ p.address = b := by
      have := h p (by simp)
      simpa using this
    simp only [patchPendingByAddress, if_neg hpb]
    rw [ih (fun x hx => h x (List.mem_cons_of_mem _ hx))]

lemma updateStatus_fst (pendings : List PendingPayment) (b : String)
    (st : PaymentStatus) :
    (updatePendingPaymentStatus pendings b st).1 =
      patchPendingByAddress pendings b (fun p => { p with status := st }) := by
  unfold updatePendingPaymentStatus
  cases h : findPendingByAddress pendings b with
  | none => simp [patch_of_find_none pendings b _ h]
  | some q => simp

lemma find_patch_addr (l : List PendingPayment) (b a : String)
    (f : PendingPayment → PendingPayment) (hf : ∀ p, (f p).address = p.address) :
    findPendingByAddress (patchPendingByAddress l b f) a =
      if a = b then (findPendingByAddress l a).map f
      else findPendingByAddress l a := by
  induction l with
  | nil =>
    simp [findPendingByAddress, patchPendingByAddress]
  | cons p rest ih =>
    simp only [patchPendingByAddress]
    by_cases hpb : p.address = b
    · rw [if_pos hpb]
      by_cases hab : a = b
      · subst hab
        simp [findPendingByAddress, List.find?_cons, hf, hpb]
      · have hba : b ≠ a := fun h => hab h.symm
        simp [findPendingByAddress, List.find?_cons, hf, hpb, hba, hab]
    · rw [if_neg hpb]
      by_cases hpa : p.address = a
      · have hab : a ≠ b := by intro h; exact hpb (by rw [hpa, h])
        simp [findPendingByAddress, List.find?_cons, hpa, hab]
      · by_cases hab : a = b
        · subst hab
          simp only [findPendingByAddress, List.find?_cons] at ih ⊢
          simp [hpa, ih]
        · simp only [findPendingByAddress, List.find?_cons] at ih ⊢
          simp [hpa, ih, hab]

lemma find?_patch_exists (l : List PendingPayment) (b : String)
    (f : PendingPayment → PendingPayment) (pred : PendingPayment → Bool)
    (hf : ∀ p, pred (f p) = pred p) :
    (l.find? pred = none → (patchPendingByAddress l b f).find? pred = none) ∧
    (∀ q, l.find? pred = some q →
      (patchPendingByAddress l b f).find? pred = some q ∨
      (patchPendingByAddress l b f).find? pred = some (f q)) := by
  induction l with
  | nil => exact ⟨fun _ => rfl, fun q h => by cases h⟩
  | cons p rest ih =>
    by_cases hpb : p.address = b
    · simp only [patchPendingByAddress, if_pos hpb]
      cases hp : pred p with
      | true =>
        refine ⟨?_, ?_⟩
        · intro h
          simp only [List.find?_cons, hp] at h
          exact Option.noConfusion h
        · intro q h
          simp only [List.find?_cons, hp, Option.some.injEq] at h
          subst h
          simp [List.find?_cons, hf, hp]
      | false =>
        refine ⟨?_, ?_⟩
        · intro h
          simp only [List.find?_cons, hp] at h
          simp only [List.find?_cons, hf, hp]
          exact h
        · intro q h
          simp only [List.find?_cons, hp] at h
          simp only [List.find?_cons, hf, hp]
          exact Or.inl h
    · simp only [patchPendingByAddress, if_neg hpb]
      cases hp : pred p with
      | true =>
        refine ⟨?_, ?_⟩
        · intro h
          simp only [List.find?_cons, hp] at h
          exact Option.noConfusion h
        · intro q h
          simp only [List.find?_cons, hp, Option.some.injEq] at h
          subst h
          simp [List.find?_cons, hp]
      | false =>
        refine ⟨?_, ?_⟩
        · intro h
          simp only [List.find?_cons, hp] at h
          simp only [List.find?_cons, hp]
          exact ih.1 h
        · intro q h
          simp only [List.find?_cons, hp] at h
          simp only [List.find?_cons, hp]
          exact ih.2 q h

/-- C4: with at least one successfully extracted price the oracle fetch
returns the median of the successes (average of the two middle values of
the sorted list for an even count), and it fails with an error exactly
when every source failed. -/
theorem oracle_fetch_returns_median (outcomes : List (Option ℚ)) :
    (outcomes.filterMap id = [] →
      fetchBtcPriceInternal outcomes =
        .error "Failed to fetch BTC price from any exchange") ∧
    (outcomes.filterMap id ≠ [] →
      fetchBtcPriceInternal outcomes = .ok (medianSpec (outcomes.filterMap id))) := by
  constructor
  · intro h
    simp [fetchBtcPriceInternal, h]
  · intro h
    have hlen : 0 < (outcomes.filterMap id).length := List.length_pos.mpr h
    have hslen : ((outcomes.filterMap id).mergeSort (· ≤ ·)).length
        = (outcomes.filterMap id).length := List.length_mergeSort _
    rcases Nat.even_or_odd (outcomes.filterMap id).length with he | ho
    · have hmod : (outcomes.filterMap id).length % 2 = 0 := Nat.even_iff.mp he
      have h2 : 2 ≤ (outcomes.filterMap id).length := by omega
      have hi1 : (outcomes.filterMap id).length / 2 - 1
          < ((outcomes.filterMap id).mergeSort (· ≤ ·)).length := by omega
      have hi2 : (outcomes.filterMap id).length / 2
          < ((outcomes.filterMap id).mergeSort (· ≤ ·)).length := by omega
      simp only [fetchBtcPriceInternal, medianSpec, hslen, hmod]
      rw [if_pos hlen]
      simp [List.getD, hmod, List.getElem?_eq_getElem hi1,
        List.getElem?_eq_getElem hi2, hslen]
    · have hmod : (outcomes.filterMap id).length % 2 = 1 := Nat.odd_iff.mp ho
      have hi2 : (outcomes.filterMap id).length / 2
          < ((outcomes.filterMap id).mergeSort (· ≤ ·)).length := by omega
      simp only [fetchBtcPriceInternal, medianSpec, hslen, hmod]
      rw [if_pos hlen]
      simp [List.getD, hmod, List.getElem?_eq_getElem hi2, hslen]

lemma updateWithTx_nonterminal (pendings : List PendingPayment)
    (address txid : String) (now : ℤ) (r : PendingPayment)
    (hfind : findPendingByAddress pendings address = some r)
    (hstat : r.status = .initialized ∨ r.status = .pending) :
    (updatePendingPaymentWithTx pendings address txid now).2 = true ∧
    findPendingByAddress (updatePendingPaymentWithTx pendings address txid now).1
        address = some { r with txid := some txid, detected_at := some now,
                                status := .pending } ∧
    (∀ b, b ≠ address →
      findPendingByAddress (updatePendingPaymentWithTx pendings address txid
        now).1 b = findPendingByAddress pendings b) := by
  have hnt : ¬ (r.status ≠ PaymentStatus.initialized ∧
      r.status ≠ PaymentStatus.pending) := by
    rcases hstat with h | h <;> simp [h]
  have hnewst :
      (if r.status = PaymentStatus.initialized then PaymentStatus.pending
        else r.status) = PaymentStatus.pending := by
    rcases hstat with h | h <;> simp [h]
  simp only [updatePendingPaymentWithTx, hfind, if_neg hnt, hnewst]
  refine ⟨trivial, ?_, ?_⟩
  · rw [find_patch_addr pendings address address
      (fun p => { p with txid := some txid, detected_at := some now,
                         status := PaymentStatus.pending }) (fun p => rfl),
      if_pos rfl, hfind]
    rfl
  · intro b hb
    rw [find_patch_addr pendings address b
      (fun p => { p with txid := some txid, detected_at := some now,
                         status := PaymentStatus.pending }) (fun p => rfl),
      if_neg hb]

lemma updateWithTx_terminal (pendings : List PendingPayment)
    (address txid : String) (now : ℤ) (r : PendingPayment)
    (hfind : findPendingByAddress pendings address = some r)
    (hstat : r.status = .confirmed ∨ r.status = .expired) :
    updatePendingPaymentWithTx pendings address txid now = (pendings, false) := by
  have hnt : r.status ≠ PaymentStatus.initialized ∧
      r.status ≠ PaymentStatus.pending := by
    rcases hstat with h | h <;> simp [h]
  simp [updatePendingPaymentWithTx, hfind, hnt]

lemma updateWithTx_missing (pendings : List PendingPayment)
    (address txid : String) (now : ℤ)
    (hfind : findPendingByAddress pendings address = none) :
    updatePendingPaymentWithTx pendings address txid now = (pendings, false) := by
  simp [updatePendingPaymentWithTx, hfind]

lemma iterateCounter_succ (c : Option Nat) (k : Nat) :
    iterateCounter c (k + 1) = some (counterVal c + k + 1) := by
  induction k with
  | zero => cases c <;> rfl
  | succ k ih =>
    show (getNextDerivationIndex (iterateCounter c (k + 1))).1 = _
    rw [ih]
    simp [getNextDerivationIndex]
    omega

lemma nthDerivationResult_eq (c : Option Nat) (k : Nat) :
    nthDerivationResult c k = counterVal c + k := by
  cases k with
  | zero => cases c <;> rfl
  | succ k =>
    show (getNextDerivationIndex (iterateCounter c (k + 1))).2 = _
    rw [iterateCounter_succ]
    simp [getNextDerivationIndex]
    omega

lemma generate_counter_bump (s : DBState) (amount : ℚ) (session_id : String)
    (metadata : Option PaymentMetadata) (price : ℚ) (derive : Nat → String)
    (jobId : String) (now : ℤ) (r : GenerateBitcoinAddressResult)
    (hok : (generateBitcoinAddress s amount session_id metadata price derive
        jobId now).result = .ok r)
    (hsched : (generateBitcoinAddress s amount session_id metadata price derive
        jobId now).scheduled = true) :
    r.derivation_index = counterVal s.counter ∧
    (generateBitcoinAddress s amount session_id metadata price derive jobId
      now).state.counter = some (r.derivation_index + 1) := by
  revert hok hsched
  simp only [generateBitcoinAddress]
  split
  · intro hok hsched; simp at hsched
  split
  · intro hok hsched; simp at hsched
  split
  · intro hok hsched; simp at hsched
  split
  · intro hok hsched; simp at hsched
  split
  · intro hok hsched; cases hok
  · intro hok hsched
    simp only [Except.ok.injEq] at hok
    subst hok
    cases s.counter <;> simp [getNextDerivationIndex, counterVal]

/-- C5: `getNextDerivationIndex` returns the prior counter value and stores
its successor; the first-ever call returns 0 and initializes the stored
counter to 1; across any sequence of calls the returned values are
strictly increasing; and a `generateBitcoinAddress` call that derives a
new address (result ok, monitor scheduled) returns the prior counter value
as its index and leaves the counter one above it. -/
theorem derivation_counter_atomic :
    (getNextDerivationIndex none = (some 1, 0)) ∧
    (∀ v : Nat, getNextDerivationIndex (some v) = (some (v + 1), v)) ∧
    (∀ c : Option Nat, ∀ n m : Nat, n < m →
      nthDerivationResult c n < nthDerivationResult c m) ∧
    (∀ s amount session_id metadata price derive jobId now r,
      (generateBitcoinAddress s amount session_id metadata price derive jobId
        now).result = .ok r →
      (generateBitcoinAddress s amount session_id metadata price derive jobId
        now).scheduled = true →
      r.derivation_index = counterVal s.counter ∧
      (generateBitcoinAddress s amount session_id metadata price derive jobId
        now).state.counter = some (r.derivation_index + 1)) := by
  refine ⟨rfl, fun v => rfl, ?_, ?_⟩
  · intro c n m hnm
    rw [nthDerivationResult_eq, nthDerivationResult_eq]
    omega
  · intro s amount session_id metadata price derive jobId now r hok hsched
    exact generate_counter_bump s amount session_id metadata price derive
      jobId now r hok hsched

/-- C6: a Monitor wake-up on an existing row with non-terminal status whose
expiry has passed sets the status to `expired` and returns without probing
the blockchain, without rescheduling, without touching the donations
ledger, the counter, or the rate-limit buckets, and without changing any
other field of the row or any other row. -/
theorem monitor_past_expiry_expires (s : DBState) (address : String)
    (expected_amount_btc : ℚ) (now : ℤ) (probe : BlockchainPaymentResult)
    (network : Network) (r : PendingPayment)
    (hfind : findPendingByAddress s.pendings address = some r)
    (hstat : r.status = .initialized ∨ r.status = .pending)
    (hnow : now > r.expires_at) :
    (monitorSinglePayment s address expected_amount_btc now probe network).probed
      = false ∧
    (monitorSinglePayment s address expected_amount_btc now probe network).rescheduled
      = false ∧
    (monitorSinglePayment s address expected_amount_btc now probe
      network).state.donations = s.donations ∧
    (monitorSinglePayment s address expected_amount_btc now probe
      network).state.counter = s.counter ∧
    (monitorSinglePayment s address expected_amount_btc now probe
      network).state.genBuckets = s.genBuckets ∧
    findPendingByAddress (monitorSinglePayment s address expected_amount_btc now
      probe network).state.pendings address = some { r with status := .expired } ∧
    (∀ b, b ≠ address →
      findPendingByAddress (monitorSinglePayment s address expected_amount_btc now
        probe network).state.pendings b = findPendingByAddress s.pendings b) := by
  have hc : ¬ r.status = PaymentStatus.confirmed := by
    rcases hstat with h | h <;> simp [h]
  have he : ¬ r.status = PaymentStatus.expired := by
    rcases hstat with h | h <;> simp [h]
  simp only [monitorSinglePayment, hfind, if_neg hc, if_neg he, if_pos hnow]
  refine ⟨trivial, trivial, trivial, trivial, trivial, ?_, ?_⟩
  · rw [updateStatus_fst,
      find_patch_addr s.pendings address address
        (fun p => { p with status := PaymentStatus.expired }) (fun p => rfl),
      if_pos rfl, hfind]
    rfl
  · intro b hb
    rw [updateStatus_fst,
      find_patch_addr s.pendings address b
        (fun p => { p with status := PaymentStatus.expired }) (fun p => rfl),
      if_neg hb]

/-- Witness for C6: the monitor waking at 86 400 001 ms on the 24-hour row
created at time 0 expires it without probing. -/
theorem monitor_past_expiry_expires_witness :
    (monitorSinglePayment sInit addr42 1 86400001 .apiFailed .mainnet).probed
      = false ∧
    (monitorSinglePayment sInit addr42 1 86400001 .apiFailed .mainnet).rescheduled
      = false ∧
    (monitorSinglePayment sInit addr42 1 86400001 .apiFailed
      .mainnet).state.donations = sInit.donations ∧
    (monitorSinglePayment sInit addr42 1 86400001 .apiFailed
      .mainnet).state.counter = sInit.counter ∧
    (monitorSinglePayment sInit addr42 1 86400001 .apiFailed
      .mainnet).state.genBuckets = sInit.genBuckets ∧
    findPendingByAddress (monitorSinglePayment sInit addr42 1 86400001
      .apiFailed .mainnet).state.pendings addr42
      = some { rowInit with status := .expired } ∧
    (∀ b, b ≠ addr42 →
      findPendingByAddress (monitorSinglePayment sInit addr42 1 86400001
        .apiFailed .mainnet).state.pendings b
        = findPendingByAddress sInit.pendings b) :=
  monitor_past_expiry_expires sInit addr42 1 86400001 .apiFailed .mainnet
    rowInit rfl (Or.inl rfl) (by decide)

lemma monitor_accept_branch (s : DBState) (address : String)
    (expected_amount_btc : ℚ) (now : ℤ) (tx : String) (amt : ℚ) (conf : Nat)
    (network : Network) (r : PendingPayment)
    (hfind : findPendingByAddress s.pendings address = some r)
    (hstat : r.status = .initialized ∨ r.status = .pending)
    (hnow : ¬ now > r.expires_at)
    (hconf : ¬ conf < bitcoinConfirmations network)
    (hacc : ¬ (|amt - expected_amount_btc| > btcAmountTolerance ∧
        amt < expected_amount_btc))
    (hdon : s.donations.find? (fun d => decide (d.payment_id = address)) = none) :
    (monitorSinglePayment s address expected_amount_btc now (.paid tx amt conf)
      network).rescheduled = false ∧
    (monitorSinglePayment s address expected_amount_btc now (.paid tx amt conf)
      network).state.donations
      = s.donations ++ [({ amount := amt * r.exchange_rate, payment_id := address,
                           display_name := getDisplayName r.metadata "Anonymous",
                           payment_method := "bitcoin",
                           message := r.metadata.bind (·.message) } : Donation)] ∧
    findPendingByAddress (monitorSinglePayment s address expected_amount_btc now
      (.paid tx amt conf) network).state.pendings address
      = some { r with status := .confirmed } := by
  have hc : ¬ r.status = PaymentStatus.confirmed := by
    rcases hstat with h | h <;> simp [h]
  have he : ¬ r.status = PaymentStatus.expired := by
    rcases hstat with h | h <;> simp [h]
  simp only [monitorSinglePayment, hfind, if_neg hc, if_neg he, if_neg hnow,
    if_neg hconf, if_neg hacc, createDonationFromPayment, hdon, updateStatus_fst]
  refine ⟨trivial, trivial, ?_⟩
  rw [find_patch_addr s.pendings address address
    (fun p => { p with status := PaymentStatus.confirmed }) (fun p => rfl),
    if_pos rfl, hfind]
  rfl

lemma monitor_underpayment_branch (s : DBState) (address : String)
    (expected_amount_btc : ℚ) (now : ℤ) (tx : String) (amt : ℚ) (conf : Nat)
    (network : Network) (r : PendingPayment)
    (hfind : findPendingByAddress s.pendings address = some r)
    (hstat : r.status = .initialized ∨ r.status = .pending)
    (hnow : ¬ now > r.expires_at)
    (hconf : ¬ conf < bitcoinConfirmations network)
    (hdiff : |amt - expected_amount_btc| > btcAmountTolerance)
    (hlt : amt < expected_amount_btc) :
    (monitorSinglePayment s address expected_amount_btc now (.paid tx amt conf)
      network).rescheduled = false ∧
    (monitorSinglePayment s address expected_amount_btc now (.paid tx amt conf)
      network).state.donations = s.donations ∧
    findPendingByAddress (monitorSinglePayment s address expected_amount_btc now
      (.paid tx amt conf) network).state.pendings address
      = some { r with status := .expired } := by
  have hc : ¬ r.status = PaymentStatus.confirmed := by
    rcases hstat with h | h <;> simp [h]
  have he : ¬ r.status = PaymentStatus.expired := by
    rcases hstat with h | h <;> simp [h]
  simp only [monitorSinglePayment, hfind, if_neg hc, if_neg he, if_neg hnow,
    if_neg hconf, if_pos (And.intro hdiff hlt), updateStatus_fst]
  refine ⟨trivial, trivial, ?_⟩
  rw [find_patch_addr s.pendings address address
    (fun p => { p with status := PaymentStatus.expired }) (fun p => rfl),
    if_pos rfl, hfind]
  rfl

lemma check_underpayment_throws (s : DBState) (address session_id : String)
    (e : ℚ) (metadata : Option PaymentMetadata) (now : ℤ) (tx : String)
    (amt : ℚ) (conf : Nat) (price : ℚ) (network : Network)
    (haddr : validateBitcoinAddress address network = .ok ())
    (hown : validateSessionOwnsAddress s.pendings session_id address now = .ok true)
    (hconf : ¬ conf < bitcoinConfirmations network)
    (he0 : e ≠ 0)
    (hdiff : |amt - e| > btcAmountTolerance)
    (hlt : amt < e) :
    checkBitcoinPayment s address session_id (some e) metadata now
      (.paid tx amt conf) price network
      = { state := s,
          result := .error ("Failed to check Bitcoin payment: " ++
            "Underpayment detected: payment amount does not match expected amount") } := by
  simp only [checkBitcoinPayment, haddr, hown, if_neg hconf, if_neg he0,
    if_pos (And.intro hdiff hlt)]

/-- C7: with enough confirmations, a received amount differing from the
expected amount by exactly the 1e-5 BTC tolerance is accepted by the
Monitor (donation created at the stored rate, status `confirmed`, no
reschedule); a received amount short of the expected amount by more than
the tolerance makes the Monitor set `expired` without creating a donation,
and makes CheckPayment (given a nonzero expected amount) fail with an
Underpayment error, leaving the whole state untouched. -/
theorem payment_tolerance_boundary :
    (∀ (s : DBState) (address : String) (expected_amount_btc : ℚ) (now : ℤ)
        (tx : String) (amt : ℚ) (conf : Nat) (network : Network)
        (r : PendingPayment),
      findPendingByAddress s.pendings address = some r →
      (r.status = .initialized ∨ r.status = .pending) →
      ¬ now > r.expires_at →
      ¬ conf < bitcoinConfirmations network →
      |amt - expected_amount_btc| = btcAmountTolerance →
      s.donations.find? (fun d => decide (d.payment_id = address)) = none →
      (monitorSinglePayment s address expected_amount_btc now (.paid tx amt conf)
        network).rescheduled = false ∧
      (monitorSinglePayment s address expected_amount_btc now (.paid tx amt conf)
        network).state.donations
        = s.donations ++ [({ amount := amt * r.exchange_rate,
                             payment_id := address,
                             display_name := getDisplayName r.metadata "Anonymous",
                             payment_method := "bitcoin",
                             message := r.metadata.bind (·.message) } : Donation)] ∧
      findPendingByAddress (monitorSinglePayment s address expected_amount_btc
        now (.paid tx amt conf) network).state.pendings address
        = some { r with status := .confirmed }) ∧
    (∀ (s : DBState) (address : String) (expected_amount_btc : ℚ) (now : ℤ)
        (tx : String) (amt : ℚ) (conf : Nat) (network : Network)
        (r : PendingPayment),
      findPendingByAddress s.pendings address = some r →
      (r.status = .initialized ∨ r.status = .pending) →
      ¬ now > r.expires_at →
      ¬ conf < bitcoinConfirmations network →
      |amt - expected_amount_btc| > btcAmountTolerance →
      amt < expected_amount_btc →
      (monitorSinglePayment s address expected_amount_btc now (.paid tx amt conf)
        network).rescheduled = false ∧
      (monitorSinglePayment s address expected_amount_btc now (.paid tx amt conf)
        network).state.donations = s.donations ∧
      findPendingByAddress (monitorSinglePayment s address expected_amount_btc
        now (.paid tx amt conf) network).state.pendings address
        = some { r with status := .expired }) ∧
    (∀ (s : DBState) (address session_id : String) (e : ℚ)
        (metadata : Option PaymentMetadata) (now : ℤ) (tx : String) (amt : ℚ)
        (conf : Nat) (price : ℚ) (network : Network),
      validateBitcoinAddress address network = .ok () →
      validateSessionOwnsAddress s.pendings session_id address now = .ok true →
      ¬ conf < bitcoinConfirmations network →
      e ≠ 0 →
      |amt - e| > btcAmountTolerance →
      amt < e →
      checkBitcoinPayment s address session_id (some e) metadata now
        (.paid tx amt conf) price network
        = { state := s,
            result := .error ("Failed to check Bitcoin payment: " ++
              "Underpayment detected: payment amount does not match expected amount") }) := by
  refine ⟨?_, ?_, ?_⟩
  · intro s address expected_amount_btc now tx amt conf network r hfind hstat
      hnow hconf hdiff hdon
    exact monitor_accept_branch s address expected_amount_btc now tx amt conf
      network r hfind hstat hnow hconf
      (fun hcon => absurd hcon.1 (by rw [hdiff]; exact lt_irrefl _)) hdon
  · intro s address expected_amount_btc now tx amt conf network r hfind hstat
      hnow hconf hdiff hlt
    exact monitor_underpayment_branch s address expected_amount_btc now tx amt
      conf network r hfind hstat hnow hconf hdiff hlt
  · intro s address session_id e metadata now tx amt conf price network haddr
      hown hconf he0 hdiff hlt
    exact check_underpayment_throws s address session_id e metadata now tx amt
      conf price network haddr hown hconf he0 hdiff hlt

/-- C8 counterexample: on a `pending` row whose stored txid is already t1
(detected at time 5), calling `updatePendingPaymentWithTx` again with the
same txid at time 10 is not a no-op — it refreshes `detected_at`. -/
theorem attach_tx_same_txid_not_noop :
    updatePendingPaymentWithTx [rowPendingTx] addr42 "t1" 10
      = ([{ rowPendingTx with detected_at := some (10 : ℤ) }], true) ∧
    (updatePendingPaymentWithTx [rowPendingTx] addr42 "t1" 10).1
      ≠ [rowPendingTx] := by
  decide

/-- C8 as amended: on an `initialized` or `pending` row the call always
patches `txid`, sets `detected_at` to the current time and leaves the
status `pending` (upgrading `initialized`) — even when the row is already
`pending` with the same txid, so only `detected_at` can differ from a
no-op; on a missing, `confirmed` or `expired` row it returns null and
mutates nothing. -/
theorem attach_tx_amended :
    (∀ (pendings : List PendingPayment) (address txid : String) (now : ℤ)
        (r : PendingPayment),
      findPendingByAddress pendings address = some r →
      (r.status = .initialized ∨ r.status = .pending) →
      (updatePendingPaymentWithTx pendings address txid now).2 = true ∧
      findPendingByAddress
          (updatePendingPaymentWithTx pendings address txid now).1 address
        = some { r with txid := some txid, detected_at := some now,
                        status := .pending } ∧
      (∀ b, b ≠ address →
        findPendingByAddress
          (updatePendingPaymentWithTx pendings address txid now).1 b
          = findPendingByAddress pendings b)) ∧
    (∀ (pendings : List PendingPayment) (address txid : String) (now : ℤ)
        (r : PendingPayment),
      findPendingByAddress pendings address = some r →
      (r.status = .confirmed ∨ r.status = .expired) →
      updatePendingPaymentWithTx pendings address txid now = (pendings, false)) ∧
    (∀ (pendings : List PendingPayment) (address txid : String) (now : ℤ),
      findPendingByAddress pendings address = none →
      updatePendingPaymentWithTx pendings address txid now = (pendings, false)) :=
  ⟨fun pendings address txid now r hfind hstat =>
      updateWithTx_nonterminal pendings address txid now r hfind hstat,
   fun pendings address txid now r hfind hstat =>
      updateWithTx_terminal pendings address txid now r hfind hstat,
   fun pendings address txid now hfind =>
      updateWithTx_missing pendings address txid now hfind⟩

lemma check_confirm_branch (s : DBState)
    (address session_id : String) (expected : Option ℚ)
    (metadata : Option PaymentMetadata) (now : ℤ) (tx : String) (amt : ℚ)
    (conf : Nat) (price : ℚ) (network : Network)
    (haddr : validateBitcoinAddress address network = .ok ())
    (hown : validateSessionOwnsAddress s.pendings session_id address now = .ok true)
    (hconf : bitcoinConfirmations network ≤ conf)
    (hexp : expected = none ∨ expected = some 0)
    (hlow : minDonationAmount ≤ amt * price)
    (hhigh : amt * price ≤ maxDonationAmount)
    (hdon : s.donations.find? (fun d => decide (d.payment_id = address)) = none) :
    (checkBitcoinPayment s address session_id expected metadata now
      (.paid tx amt conf) price network).result
      = .ok (.paidResult tx amt conf (bitcoinConfirmations network)) ∧
    (checkBitcoinPayment s address session_id expected metadata now
      (.paid tx amt conf) price network).state.donations
      = s.donations ++ [({ amount := amt * price, payment_id := address,
                           display_name := getDisplayName metadata "Anonymous",
                           payment_method := "bitcoin",
                           message := metadata.bind (·.message) } : Donation)] ∧
    findPendingByAddress (checkBitcoinPayment s address session_id expected
      metadata now (.paid tx amt conf) price network).state.pendings address
      = (findPendingByAddress s.pendings address).map
          (fun p => { p with status := .confirmed }) := by
  have hnc : ¬ conf < bitcoinConfirmations network := not_lt.mpr hconf
  have hval : validateDonationAmount (amt * price) = .ok () := by
    unfold validateDonationAmount
    rw [if_neg (not_lt.mpr hlow), if_neg (not_lt.mpr hhigh)]
  simp only [checkBitcoinPayment, haddr, hown, if_neg hnc]
  rcases hexp with h | h <;> subst h
  · simp only [hval, createDonationFromPayment, hdon, updateStatus_fst]
    refine ⟨trivial, trivial, ?_⟩
    rw [find_patch_addr s.pendings address address
      (fun p => { p with status := PaymentStatus.confirmed }) (fun p => rfl),
      if_pos rfl]
  · simp only [if_pos rfl, if_true, hval, createDonationFromPayment, hdon,
      updateStatus_fst]
    refine ⟨trivial, trivial, ?_⟩
    rw [find_patch_addr s.pendings address address
      (fun p => { p with status := PaymentStatus.confirmed }) (fun p => rfl),
      if_pos rfl]

/-- C9: `checkBitcoinPayment` with the optional `expected_btc_amount`
omitted (or equal to 0) performs no tolerance check at all: a fully
confirmed transaction of any amount, regardless of the pending row's
expected amount, creates a donation at `amount_btc × current price` and
marks the payment confirmed, provided only that this recomputed USD value
passes the donation bounds. -/
theorem check_without_expected_amount_confirms (s : DBState)
    (address session_id : String) (expected : Option ℚ)
    (metadata : Option PaymentMetadata) (now : ℤ) (tx : String) (amt : ℚ)
    (conf : Nat) (price : ℚ) (network : Network)
    (haddr : validateBitcoinAddress address network = .ok ())
    (hown : validateSessionOwnsAddress s.pendings session_id address now = .ok true)
    (hconf : bitcoinConfirmations network ≤ conf)
    (hexp : expected = none ∨ expected = some 0)
    (hlow : minDonationAmount ≤ amt * price)
    (hhigh : amt * price ≤ maxDonationAmount)
    (hdon : s.donations.find? (fun d => decide (d.payment_id = address)) = none) :
    (checkBitcoinPayment s address session_id expected metadata now
      (.paid tx amt conf) price network).result
      = .ok (.paidResult tx amt conf (bitcoinConfirmations network)) ∧
    (checkBitcoinPayment s address session_id expected metadata now
      (.paid tx amt conf) price network).state.donations
      = s.donations ++ [({ amount := amt * price, payment_id := address,
                           display_name := getDisplayName metadata "Anonymous",
                           payment_method := "bitcoin",
                           message := metadata.bind (·.message) } : Donation)] ∧
    findPendingByAddress (checkBitcoinPayment s address session_id expected
      metadata now (.paid tx amt conf) price network).state.pendings address
      = (findPendingByAddress s.pendings address).map
          (fun p => { p with status := .confirmed }) :=
  check_confirm_branch s address session_id expected metadata now tx amt conf
    price network haddr hown hconf hexp hlow hhigh hdon

/-- Witness for C9: a row expecting 0.002 BTC is credited 0.001 BTC — half
the expected amount, far beyond the tolerance — yet the check with no
expected amount argument confirms it and donates $50. -/
theorem check_without_expected_amount_confirms_witness :
    (checkBitcoinPayment sPendingTx addr42 "s1" none none 100
      (.paid "t1" (1/1000) 3) 50000 .mainnet).result
      = .ok (.paidResult "t1" (1/1000) 3 (bitcoinConfirmations .mainnet)) ∧
    (checkBitcoinPayment sPendingTx addr42 "s1" none none 100
      (.paid "t1" (1/1000) 3) 50000 .mainnet).state.donations
      = sPendingTx.donations ++
          [({ amount := (1/1000 : ℚ) * 50000, payment_id := addr42,
              display_name := getDisplayName none "Anonymous",
              payment_method := "bitcoin",
              message := (none : Option PaymentMetadata).bind (·.message) } : Donation)] ∧
    findPendingByAddress (checkBitcoinPayment sPendingTx addr42 "s1" none none
      100 (.paid "t1" (1/1000) 3) 50000 .mainnet).state.pendings addr42
      = (findPendingByAddress sPendingTx.pendings addr42).map
          (fun p => { p with status := .confirmed }) :=
  check_without_expected_amount_confirms sPendingTx addr42 "s1" none none 100
    "t1" (1/1000) 3 50000 .mainnet rfl rfl (by decide) (Or.inl rfl)
    (by norm_num [minDonationAmount]) (by norm_num [maxDonationAmount]) rfl

/-- C2 counterexample: a row already `expired` (timed out unpaid) is
flipped back to `confirmed` by a late `CheckPayment` poll whose probe
reports a fully confirmed transaction — the status changes again after a
terminal status was reached. -/
theorem terminal_status_not_monotone_cex :
    (findPendingByAddress sExpiredManual.pendings addr42).map (·.status)
      = some .expired ∧
    (findPendingByAddress (step sExpiredManual opCheckLate).pendings
      addr42).map (·.status) = some .confirmed := by
  refine ⟨rfl, ?_⟩
  have h := (check_confirm_branch sExpiredManual addr42 "s1" none none 86400002
    "t1" (1/1000) 3 50000 .mainnet rfl rfl (by decide) (Or.inl rfl)
    (by norm_num [minDonationAmount]) (by norm_num [maxDonationAmount]) rfl).2.2
  show (findPendingByAddress (checkBitcoinPayment sExpiredManual addr42 "s1"
    none none 86400002 (.paid "t1" (1/1000) 3) 50000 .mainnet).state.pendings
    addr42).map (·.status) = some .confirmed
  rw [h]
  rfl

lemma step_donations (s : DBState) (op : Op) :
    (step s op).donations = s.donations ∨
    ∃ address amount_usd display_name message,
      (step s op).donations =
        (createDonationFromPayment s.donations address amount_usd display_name
          message).1 := by
  cases op with
  | generateOp amount session_id metadata price derive jobId now =>
    left
    simp only [step, generateBitcoinAddress]
    split
    · rfl
    split
    · rfl
    split
    · rfl
    split
    · rfl
    split
    · rfl
    · rfl
  | monitorOp address expected now probe network =>
    simp only [step, monitorSinglePayment]
    split
    · left; rfl
    split
    · left; rfl
    split
    · left; rfl
    split
    · left; rfl
    split
    · left; rfl
    · left; rfl
    · left; rfl
    · split
      · left; rfl
      split
      · left; rfl
      · right
        exact ⟨address, _, _, _, rfl⟩
  | checkOp address session_id expected metadata now probe price network =>
    simp only [step, checkBitcoinPayment]
    split
    · left; rfl
    split
    · left; rfl
    split
    · left; rfl
    · left; rfl
    · left; rfl
    · split
      · left; rfl
      split
      · left; rfl
      split
      · left; rfl
      · right
        exact ⟨address, _, _, _, rfl⟩
  | markExpiredOp address session_id =>
    left
    simp only [step]
    split
    · rfl
    · rfl
  | cleanupOp now =>
    left; rfl

lemma donationCount_zero_iff (donations : List Donation) (a : String) :
    donations.find? (fun d => decide (d.payment_id = a)) = none ↔
      donationCount donations a = 0 := by
  rw [List.find?_eq_none, donationCount, List.length_eq_zero,
    List.filter_eq_nil_iff]

lemma createDonation_count_ne (donations : List Donation)
    (address : String) (amt : ℚ) (name : String) (msg : Option String)
    (a : String) (h : a ≠ address) :
    donationCount (createDonationFromPayment donations address amt name msg).1 a
      = donationCount donations a := by
  unfold createDonationFromPayment
  cases hf : donations.find? (fun d => decide (d.payment_id = address)) with
  | some q => rfl
  | none =>
    have hne : ¬ (address = a) := fun hh => h hh.symm
    simp [donationCount, List.filter_append, hne]

lemma createDonation_count_self (donations : List Donation)
    (address : String) (amt : ℚ) (name : String) (msg : Option String) :
    donationCount (createDonationFromPayment donations address amt name msg).1
        address
      = if donationCount donations address = 0 then 1
        else donationCount donations address := by
  unfold createDonationFromPayment
  cases hf : donations.find? (fun d => decide (d.payment_id = address)) with
  | some q =>
    have hne : ¬ donationCount donations address = 0 := by
      intro h0
      rw [← donationCount_zero_iff donations address] at h0
      rw [hf] at h0
      exact Option.noConfusion h0
    simp [hne]
  | none =>
    have h0 : donationCount donations address = 0 :=
      (donationCount_zero_iff donations address).mp hf
    have hfe : donations.filter (fun d => decide (d.payment_id = address)) = [] :=
      List.length_eq_zero.mp h0
    simp [donationCount, List.filter_append, hfe, h0]

lemma donationCount_le_one_step (s : DBState) (op : Op)
    (hinv : ∀ a, donationCount s.donations a ≤ 1) :
    ∀ a, donationCount (step s op).donations a ≤ 1 := by
  intro a
  rcases step_donations s op with h | ⟨address, amt, name, msg, h⟩
  · rw [h]; exact hinv a
  · rw [h]
    by_cases ha : a = address
    · subst ha
      rw [createDonation_count_self]
      split
      · exact le_refl 1
      · exact hinv a
    · rw [createDonation_count_ne s.donations address amt name msg a ha]
      exact hinv a

lemma donationCount_le_one_runOps (ops : List Op) :
    ∀ s : DBState, (∀ a, donationCount s.donations a ≤ 1) →
      ∀ a, donationCount (runOps s ops).donations a ≤ 1 := by
  induction ops with
  | nil => intro s h; exact h
  | cons op rest ih =>
    intro s h
    exact ih (step s op) (donationCount_le_one_step s op h)

lemma runCreateDonations_stable (address : String)
    (args : List (ℚ × String × Option String)) :
    ∀ donations : List Donation, donationCount donations address = 1 →
      donationCount (runCreateDonations donations address args) address = 1 := by
  induction args with
  | nil => intro donations h; exact h
  | cons arg rest ih =>
    intro donations h
    rcases arg with ⟨amt, name, msg⟩
    have h1 : donationCount
        (createDonationFromPayment donations address amt name msg).1 address
        = 1 := by
      rw [createDonation_count_self, h]
      simp
    exact ih _ h1

/-- C1: every reachable database state holds at most one donation per
payment id; `createDonationFromPayment` with the payment id already
present returns false and changes nothing; with it absent it appends
exactly one row and returns true; and any nonzero number of such calls
(the Monitor's and CheckPayment's insert attempts, in any order) on a
ledger without the payment id leaves exactly one row for it. -/
theorem donation_ledger_unique :
    (∀ s : DBState, Reachable s → ∀ a, donationCount s.donations a ≤ 1) ∧
    (∀ (donations : List Donation) (address : String) (amt : ℚ) (name : String)
        (msg : Option String) (q : Donation),
      donations.find? (fun d => decide (d.payment_id = address)) = some q →
      createDonationFromPayment donations address amt name msg
        = (donations, false)) ∧
    (∀ (donations : List Donation) (address : String) (amt : ℚ) (name : String)
        (msg : Option String),
      donations.find? (fun d => decide (d.payment_id = address)) = none →
      createDonationFromPayment donations address amt name msg
        = (donations ++ [({ amount := amt, payment_id := address,
                            display_name := name, payment_method := "bitcoin",
                            message := msg } : Donation)], true)) ∧
    (∀ (donations : List Donation) (address : String)
        (args : List (ℚ × String × Option String)),
      donationCount donations address = 0 → args ≠ [] →
      donationCount (runCreateDonations donations address args) address = 1) := by
  refine ⟨?_, ?_, ?_, ?_⟩
  · rintro s ⟨ops, rfl⟩ a
    refine donationCount_le_one_runOps ops initState ?_ a
    intro b
    exact Nat.zero_le 1
  · intro donations address amt name msg q hf
    simp [createDonationFromPayment, hf]
  · intro donations address amt name msg hf
    simp [createDonationFromPayment, hf]
  · intro donations address args h0 hargs
    cases args with
    | nil => exact absurd rfl hargs
    | cons arg rest =>
      rcases arg with ⟨amt, name, msg⟩
      have h1 : donationCount
          (createDonationFromPayment donations address amt name msg).1 address
          = 1 := by
        rw [createDonation_count_self, if_pos h0]
      exact runCreateDonations_stable address rest _ h1



lemma checkExisting_none (pendings : List PendingPayment)
    (session_id : String) (amount : ℚ) (now : ℤ)
    (h : pendings.find? (fun p =>
      decide (p.session_id = session_id ∧ p.expected_amount_usd = amount)) = none) :
    checkExistingPaymentSession pendings session_id amount now = none := by
  simp only [Bool.decide_and] at h
  simp [checkExistingPaymentSession, h]

lemma updateJobId_ok (pendings : List PendingPayment) (b job : String)
    (h : findPendingByAddress pendings b ≠ none) :
    updatePendingPaymentJobId pendings b job =
      .ok (patchPendingByAddress pendings b
        (fun p => { p with scheduled_job_id := some job })) := by
  unfold updatePendingPaymentJobId
  cases hf : findPendingByAddress pendings b with
  | none => exact absurd hf h
  | some q => rfl

lemma generate_explicit (s : DBState) (amount : ℚ)
    (session_id : String) (metadata : Option PaymentMetadata)
    (price1 : ℚ) (derive : Nat → String) (jobId1 : String) (now1 : ℤ)
    (hv1 : validateDonationAmount amount = .ok ())
    (hv2 : playerNameCheck metadata = .ok ())
    (hv3 : messageCheck metadata = .ok ())
    (hce1 : checkExistingPaymentSession s.pendings session_id amount now1 = none) :
    generateBitcoinAddress s amount session_id metadata price1 derive
      jobId1 now1 =
    { state :=
        { donations := s.donations,
          pendings :=
            patchPendingByAddress
              (createPendingBitcoinPayment s.pendings session_id
                (derive (getNextDerivationIndex s.counter).2)
                (amount / price1) amount price1
                (getNextDerivationIndex s.counter).2 metadata now1)
              (derive (getNextDerivationIndex s.counter).2)
              (fun p => { p with scheduled_job_id := some jobId1 }),
          counter := (getNextDerivationIndex s.counter).1,
          genBuckets :=
            setBucket s.genBuckets session_id
              (tokenBucketLimit (lookupBucket s.genBuckets session_id) now1).1 },
      result :=
        .ok { address := derive (getNextDerivationIndex s.counter).2,
              amount_btc := amount / price1, amount_usd := amount,
              exchange_rate := price1,
              derivation_index := (getNextDerivationIndex s.counter).2 },
      tokenConsumed :=
        (tokenBucketLimit (lookupBucket s.genBuckets session_id) now1).2,
      scheduled := true } := by
  have hne : findPendingByAddress (createPendingBitcoinPayment s.pendings
      session_id (derive (getNextDerivationIndex s.counter).2) (amount / price1)
      amount price1 (getNextDerivationIndex s.counter).2 metadata now1)
      (derive (getNextDerivationIndex s.counter).2) ≠ none := by
    unfold createPendingBitcoinPayment findPendingByAddress
    rw [List.find?_append]
    cases hl : s.pendings.find? (fun p =>
        decide (p.address = derive (getNextDerivationIndex s.counter).2)) with
    | some q => simp [Option.or]
    | none => simp [Option.or]
  have hjob := updateJobId_ok _ _ jobId1 hne
  simp only [generateBitcoinAddress, hv1, hv2, hv3, hce1, hjob]



lemma generate_short_circuit (s : DBState) (amount : ℚ)
    (session_id : String) (metadata : Option PaymentMetadata)
    (price : ℚ) (derive : Nat → String) (jobId : String) (now : ℤ)
    (addr : String) (idx : Nat)
    (hv1 : validateDonationAmount amount = .ok ())
    (hv2 : playerNameCheck metadata = .ok ())
    (hv3 : messageCheck metadata = .ok ())
    (hce : checkExistingPaymentSession s.pendings session_id amount now
      = some (addr, idx)) :
    generateBitcoinAddress s amount session_id metadata price derive jobId now =
    { state :=
        { s with
            genBuckets :=
              setBucket s.genBuckets session_id
                (tokenBucketLimit (lookupBucket s.genBuckets session_id) now).1 },
      result :=
        .ok { address := addr, amount_btc := amount / price,
              amount_usd := amount, exchange_rate := price,
              derivation_index := idx },
      tokenConsumed :=
        (tokenBucketLimit (lookupBucket s.genBuckets session_id) now).2,
      scheduled := false } := by
  simp only [generateBitcoinAddress, hv1, hv2, hv3, hce]

lemma checkExisting_after_create_jobid (l : List PendingPayment)
    (row : PendingPayment) (b j session_id : String) (amount : ℚ) (now : ℤ)
    (hno : l.find? (fun p =>
      decide (p.session_id = session_id ∧ p.expected_amount_usd = amount)) = none)
    (hsess : row.session_id = session_id)
    (hamt : row.expected_amount_usd = amount)
    (hexp : row.expires_at > now) :
    checkExistingPaymentSession
      (patchPendingByAddress (l ++ [row]) b
        (fun p => { p with scheduled_job_id := some j }))
      session_id amount now = some (row.address, row.derivation_index) := by
  have hpred : (fun p : PendingPayment =>
      decide (p.session_id = session_id ∧ p.expected_amount_usd = amount)) row
      = true := by
    simp [hsess, hamt]
  have h1 : (l ++ [row]).find? (fun p =>
      decide (p.session_id = session_id ∧ p.expected_amount_usd = amount))
      = some row := by
    rw [List.find?_append, hno]
    simp only [List.find?_cons, hpred, Option.none_or]
  have h2 := (find?_patch_exists (l ++ [row]) b
    (fun p => { p with scheduled_job_id := some j })
    (fun p => decide (p.session_id = session_id ∧ p.expected_amount_usd = amount))
    (fun p => rfl)).2 row h1
  unfold checkExistingPaymentSession
  rcases h2 with h | h <;> rw [h] <;> simp [hexp]



/-- C3 as amended: two `generateBitcoinAddress` calls with the same
(amount, session) while the first call's row is unexpired both succeed and
return the same address and derivation index, and the counter is bumped
only by the first call; but the rate limiter runs before the idempotency
check, so the second call still consumes a rate-limit token whenever the
bucket has one — it is never rejected only because the source discards the
limiter's verdict. -/
theorem generate_idempotent_rate_limit_first (s : DBState) (amount : ℚ)
    (session_id : String) (metadata : Option PaymentMetadata)
    (price1 price2 : ℚ) (derive derive2 : Nat → String)
    (jobId1 jobId2 : String) (now1 now2 : ℤ)
    (hv1 : validateDonationAmount amount = .ok ())
    (hv2 : playerNameCheck metadata = .ok ())
    (hv3 : messageCheck metadata = .ok ())
    (hno : s.pendings.find? (fun p =>
      decide (p.session_id = session_id ∧ p.expected_amount_usd = amount)) = none)
    (hnow2 : now2 < now1 + 86400000) :
    ∃ r1,
      (generateBitcoinAddress s amount session_id metadata price1 derive jobId1
        now1).result = .ok r1 ∧
      (generateBitcoinAddress s amount session_id metadata price1 derive jobId1
        now1).scheduled = true ∧
      (generateBitcoinAddress (generateBitcoinAddress s amount session_id
          metadata price1 derive jobId1 now1).state amount session_id metadata
          price2 derive2 jobId2 now2).result
        = .ok { address := r1.address, amount_btc := amount / price2,
                amount_usd := amount, exchange_rate := price2,
                derivation_index := r1.derivation_index } ∧
      (generateBitcoinAddress (generateBitcoinAddress s amount session_id
          metadata price1 derive jobId1 now1).state amount session_id metadata
          price2 derive2 jobId2 now2).scheduled = false ∧
      (generateBitcoinAddress (generateBitcoinAddress s amount session_id
          metadata price1 derive jobId1 now1).state amount session_id metadata
          price2 derive2 jobId2 now2).state.counter
        = (generateBitcoinAddress s amount session_id metadata price1 derive
            jobId1 now1).state.counter ∧
      (generateBitcoinAddress (generateBitcoinAddress s amount session_id
          metadata price1 derive jobId1 now1).state amount session_id metadata
          price2 derive2 jobId2 now2).state.pendings
        = (generateBitcoinAddress s amount session_id metadata price1 derive
            jobId1 now1).state.pendings ∧
      (generateBitcoinAddress (generateBitcoinAddress s amount session_id
          metadata price1 derive jobId1 now1).state amount session_id metadata
          price2 derive2 jobId2 now2).tokenConsumed
        = (tokenBucketLimit (lookupBucket (generateBitcoinAddress s amount
            session_id metadata price1 derive jobId1 now1).state.genBuckets
            session_id) now2).2 ∧
      (generateBitcoinAddress s amount session_id metadata price1 derive jobId1
        now1).state.genBuckets
        = setBucket s.genBuckets session_id
            (tokenBucketLimit (lookupBucket s.genBuckets session_id) now1).1 := by
  have hce1 : checkExistingPaymentSession s.pendings session_id amount now1
      = none := checkExisting_none _ _ _ _ hno
  have hE1 := generate_explicit s amount session_id metadata price1 derive
    jobId1 now1 hv1 hv2 hv3 hce1
  have hce2 : checkExistingPaymentSession
      (generateBitcoinAddress s amount session_id metadata price1 derive jobId1
        now1).state.pendings session_id amount now2
      = some (derive (getNextDerivationIndex s.counter).2,
              (getNextDerivationIndex s.counter).2) := by
    rw [hE1]
    exact checkExisting_after_create_jobid s.pendings _ _ jobId1 session_id
      amount now2 hno rfl rfl (by simpa using hnow2)
  have hE2 := generate_short_circuit
    (generateBitcoinAddress s amount session_id metadata price1 derive jobId1
      now1).state amount session_id metadata price2 derive2 jobId2 now2
    (derive (getNextDerivationIndex s.counter).2)
    (getNextDerivationIndex s.counter).2 hv1 hv2 hv3 hce2
  refine ⟨{ address := derive (getNextDerivationIndex s.counter).2,
            amount_btc := amount / price1, amount_usd := amount,
            exchange_rate := price1,
            derivation_index := (getNextDerivationIndex s.counter).2 },
    ?_, ?_, ?_, ?_, ?_, ?_, ?_, ?_⟩
  · rw [hE1]
  · rw [hE1]
  · rw [hE2]
  · rw [hE2]
  · rw [hE2]
  · rw [hE2]
  · rw [hE2]
  · rw [hE1]




/-- Witness for C3: two identical calls at a 300-second gap from the empty
database. -/
theorem generate_idempotent_rate_limit_first_witness :
    ∃ r1,
      (generateBitcoinAddress initState 100 "s1" none 50000 deriveConst "j1"
        0).result = .ok r1 ∧
      (generateBitcoinAddress initState 100 "s1" none 50000 deriveConst "j1"
        0).scheduled = true ∧
      (generateBitcoinAddress (generateBitcoinAddress initState 100 "s1" none
          50000 deriveConst "j1" 0).state 100 "s1" none 50000 deriveConst "j2"
          300000).result
        = .ok { address := r1.address, amount_btc := (100 : ℚ) / 50000,
                amount_usd := 100, exchange_rate := 50000,
                derivation_index := r1.derivation_index } ∧
      (generateBitcoinAddress (generateBitcoinAddress initState 100 "s1" none
          50000 deriveConst "j1" 0).state 100 "s1" none 50000 deriveConst "j2"
          300000).scheduled = false ∧
      (generateBitcoinAddress (generateBitcoinAddress initState 100 "s1" none
          50000 deriveConst "j1" 0).state 100 "s1" none 50000 deriveConst "j2"
          300000).state.counter
        = (generateBitcoinAddress initState 100 "s1" none 50000 deriveConst
            "j1" 0).state.counter ∧
      (generateBitcoinAddress (generateBitcoinAddress initState 100 "s1" none
          50000 deriveConst "j1" 0).state 100 "s1" none 50000 deriveConst "j2"
          300000).state.pendings
        = (generateBitcoinAddress initState 100 "s1" none 50000 deriveConst
            "j1" 0).state.pendings ∧
      (generateBitcoinAddress (generateBitcoinAddress initState 100 "s1" none
          50000 deriveConst "j1" 0).state 100 "s1" none 50000 deriveConst "j2"
          300000).tokenConsumed
        = (tokenBucketLimit (lookupBucket (generateBitcoinAddress initState 100
            "s1" none 50000 deriveConst "j1" 0).state.genBuckets "s1") 300000).2 ∧
      (generateBitcoinAddress initState 100 "s1" none 50000 deriveConst "j1"
        0).state.genBuckets
        = setBucket initState.genBuckets "s1"
            (tokenBucketLimit (lookupBucket initState.genBuckets "s1") 0).1 :=
  generate_idempotent_rate_limit_first initState 100 "s1" none 50000 50000
    deriveConst deriveConst "j1" "j2" 0 300000 rfl rfl rfl rfl (by decide)

/-- C3 counterexample: with the two calls 300 s apart (bucket refilled),
the second call consumes a rate-limit token even though it returns the
first call's address without bumping the counter — it does not
short-circuit before the rate limiter. -/
theorem generate_second_call_consumes_token_cex :
    (generateBitcoinAddress (generateBitcoinAddress initState 100 "s1" none
      50000 deriveConst "j1" 0).state 100 "s1" none 50000 deriveConst "j2"
      300000).tokenConsumed = true ∧
    (generateBitcoinAddress (generateBitcoinAddress initState 100 "s1" none
      50000 deriveConst "j1" 0).state 100 "s1" none 50000 deriveConst "j2"
      300000).result
      = .ok { address := addr42, amount_btc := (100 : ℚ) / 50000,
              amount_usd := 100, exchange_rate := 50000,
              derivation_index := 0 } ∧
    (generateBitcoinAddress (generateBitcoinAddress initState 100 "s1" none
      50000 deriveConst "j1" 0).state 100 "s1" none 50000 deriveConst "j2"
      300000).state.counter
      = (generateBitcoinAddress initState 100 "s1" none 50000 deriveConst "j1"
          0).state.counter := by
  have hce1 : checkExistingPaymentSession initState.pendings "s1" 100 0
      = none := rfl
  have hE1 := generate_explicit initState 100 "s1" none 50000 deriveConst "j1"
    0 rfl rfl rfl hce1
  have hce2 : checkExistingPaymentSession
      (generateBitcoinAddress initState 100 "s1" none 50000 deriveConst "j1"
        0).state.pendings "s1" 100 300000
      = some (addr42, 0) := by
    rw [hE1]
    apply checkExisting_after_create_jobid initState.pendings
      { session_id := "s1",
        address := deriveConst (getNextDerivationIndex initState.counter).2,
        expected_amount_btc := (100 : ℚ) / 50000, expected_amount_usd := 100,
        exchange_rate := 50000,
        derivation_index := (getNextDerivationIndex initState.counter).2,
        metadata := none, status := .initialized, txid := none,
        detected_at := none, scheduled_job_id := none, created_at := 0,
        expires_at := 0 + 86400000 }
      (deriveConst (getNextDerivationIndex initState.counter).2) "j1" "s1"
      100 300000 rfl rfl rfl (by decide)
  have hE2 := generate_short_circuit
    (generateBitcoinAddress initState 100 "s1" none 50000 deriveConst "j1"
      0).state 100 "s1" none 50000 deriveConst "j2" 300000 addr42 0
    rfl rfl rfl hce2
  refine ⟨?_, ?_, ?_⟩
  · rw [hE2, hE1]
    show (tokenBucketLimit (lookupBucket (setBucket initState.genBuckets "s1"
      (tokenBucketLimit (lookupBucket initState.genBuckets "s1") 0).1) "s1")
      300000).2 = true
    have hbk : lookupBucket (setBucket initState.genBuckets "s1"
        (tokenBucketLimit (lookupBucket initState.genBuckets "s1") 0).1) "s1"
        = some (tokenBucketLimit (lookupBucket initState.genBuckets "s1") 0).1 := rfl
    rw [hbk]
    have h10 : tokenBucketLimit (lookupBucket initState.genBuckets "s1") 0
        = ({ value := 1 - 1, ts := 0 }, true) := rfl
    rw [h10]
    show (tokenBucketLimit (some { value := 1 - 1, ts := 0 }) 300000).2 = true
    unfold tokenBucketLimit
    have hv : min (1 : ℚ) ((1 - 1) + (((300000 : ℤ) - 0 : ℤ) : ℚ) * (1 / 300000))
        = 1 := by norm_num
    simp only [hv]
    norm_num
  · rw [hE2]
  · rw [hE2]




lemma find?_append_first (pre post : List PendingPayment) (r : PendingPayment)
    (pred : PendingPayment → Bool) (hpre : ∀ p ∈ pre, pred p = false)
    (hr : pred r = true) :
    (pre ++ r :: post).find? pred = some r := by
  induction pre with
  | nil => simp [List.find?_cons, hr]
  | cons p rest ih =>
    have hp := hpre p (by simp)
    simp only [List.cons_append, List.find?_cons, hp]
    exact ih (fun q hq => hpre q (List.mem_cons_of_mem _ hq))

lemma patch_append_of_not_mem (pre post : List PendingPayment)
    (r : PendingPayment) (b : String) (f : PendingPayment → PendingPayment)
    (hpre : ∀ p ∈ pre, ¬ p.address = b) (hr : r.address = b) :
    patchPendingByAddress (pre ++ r :: post) b f = pre ++ f r :: post := by
  induction pre with
  | nil => simp [patchPendingByAddress, hr]
  | cons p rest ih =>
    have hp := hpre p (by simp)
    simp only [List.cons_append, patchPendingByAddress, if_neg hp]
    exact congrArg (List.cons p) (ih (fun q hq => hpre q (List.mem_cons_of_mem _ hq)))

/-- C10: `checkExistingPaymentSession` matches only on (session, amount)
and the time window, ignoring the row's status.  A row the client already
expired through `markPaymentExpired` whose 24-hour window is still open is
therefore returned by a repeat `generateBitcoinAddress` with the same
session and amount: the client gets the expired row's address and index
back, no new address is derived and the counter is untouched. -/
theorem regenerate_returns_client_expired_row (pre post : List PendingPayment)
    (r : PendingPayment) (donations : List Donation) (counter : Option Nat)
    (buckets : List (String × TokenBucket)) (metadata : Option PaymentMetadata)
    (price : ℚ) (derive : Nat → String) (jobId : String) (now2 : ℤ)
    (hpre : ∀ p ∈ pre, ¬ p.address = r.address ∧
      ¬ (p.session_id = r.session_id ∧
         p.expected_amount_usd = r.expected_amount_usd))
    (hr : r.status = .initialized)
    (hv1 : validateDonationAmount r.expected_amount_usd = .ok ())
    (hv2 : playerNameCheck metadata = .ok ())
    (hv3 : messageCheck metadata = .ok ())
    (hnow2 : now2 < r.expires_at) :
    markPaymentExpired (pre ++ r :: post) r.address r.session_id
      = .ok (pre ++ { r with status := .expired } :: post, true) ∧
    (generateBitcoinAddress
      { donations := donations,
        pendings := pre ++ { r with status := .expired } :: post,
        counter := counter, genBuckets := buckets }
      r.expected_amount_usd r.session_id metadata price derive jobId
      now2).result
      = .ok { address := r.address,
              amount_btc := r.expected_amount_usd / price,
              amount_usd := r.expected_amount_usd, exchange_rate := price,
              derivation_index := r.derivation_index } ∧
    (generateBitcoinAddress
      { donations := donations,
        pendings := pre ++ { r with status := .expired } :: post,
        counter := counter, genBuckets := buckets }
      r.expected_amount_usd r.session_id metadata price derive jobId
      now2).scheduled = false ∧
    (generateBitcoinAddress
      { donations := donations,
        pendings := pre ++ { r with status := .expired } :: post,
        counter := counter, genBuckets := buckets }
      r.expected_amount_usd r.session_id metadata price derive jobId
      now2).state.counter = counter ∧
    (generateBitcoinAddress
      { donations := donations,
        pendings := pre ++ { r with status := .expired } :: post,
        counter := counter, genBuckets := buckets }
      r.expected_amount_usd r.session_id metadata price derive jobId
      now2).state.pendings = pre ++ { r with status := .expired } :: post ∧
    findPendingByAddress (generateBitcoinAddress
      { donations := donations,
        pendings := pre ++ { r with status := .expired } :: post,
        counter := counter, genBuckets := buckets }
      r.expected_amount_usd r.session_id metadata price derive jobId
      now2).state.pendings r.address = some { r with status := .expired } := by
  have hfind : findPendingByAddress (pre ++ r :: post) r.address = some r := by
    unfold findPendingByAddress
    exact find?_append_first pre post r _
      (fun p hp => by simp [(hpre p hp).1]) (by simp)
  have hsess : ¬ r.session_id ≠ r.session_id := by simp
  have hmark : markPaymentExpired (pre ++ r :: post) r.address r.session_id
      = .ok (pre ++ { r with status := .expired } :: post, true) := by
    simp only [markPaymentExpired, hfind, if_neg hsess, if_pos hr]
    rw [patch_append_of_not_mem pre post r r.address _
      (fun p hp => (hpre p hp).1) rfl]
  have hfind2 : findPendingByAddress
      (pre ++ { r with status := .expired } :: post) r.address
      = some { r with status := .expired } := by
    unfold findPendingByAddress
    exact find?_append_first pre post _ _
      (fun p hp => by simp [(hpre p hp).1]) (by simp)
  have hce : checkExistingPaymentSession
      (pre ++ { r with status := .expired } :: post) r.session_id
      r.expected_amount_usd now2 = some (r.address, r.derivation_index) := by
    unfold checkExistingPaymentSession
    rw [find?_append_first pre post _ _
      (fun p hp => by simp; intro hs; exact fun ha => (hpre p hp).2 ⟨hs, ha⟩)
      (by simp)]
    simp [hnow2]
  have hE := generate_short_circuit
    { donations := donations,
      pendings := pre ++ { r with status := .expired } :: post,
      counter := counter, genBuckets := buckets }
    r.expected_amount_usd r.session_id metadata price derive jobId now2
    r.address r.derivation_index hv1 hv2 hv3 hce
  refine ⟨hmark, ?_, ?_, ?_, ?_, ?_⟩
  · rw [hE]
  · rw [hE]
  · rw [hE]
  · rw [hE]
  · rw [hE]
    exact hfind2


/-- Witness for C10: a single initialized row, client-expired, then
regenerated 1 second later with the same session and amount. -/
theorem regenerate_returns_client_expired_row_witness :
    markPaymentExpired ([] ++ rowInit :: []) rowInit.address rowInit.session_id
      = .ok ([] ++ { rowInit with status := .expired } :: [], true) ∧
    (generateBitcoinAddress
      { donations := [],
        pendings := [] ++ { rowInit with status := .expired } :: [],
        counter := some 1, genBuckets := [] }
      rowInit.expected_amount_usd rowInit.session_id none 50000 deriveConst
      "j2" 1000).result
      = .ok { address := rowInit.address,
              amount_btc := rowInit.expected_amount_usd / 50000,
              amount_usd := rowInit.expected_amount_usd, exchange_rate := 50000,
              derivation_index := rowInit.derivation_index } ∧
    (generateBitcoinAddress
      { donations := [],
        pendings := [] ++ { rowInit with status := .expired } :: [],
        counter := some 1, genBuckets := [] }
      rowInit.expected_amount_usd rowInit.session_id none 50000 deriveConst
      "j2" 1000).scheduled = false ∧
    (generateBitcoinAddress
      { donations := [],
        pendings := [] ++ { rowInit with status := .expired } :: [],
        counter := some 1, genBuckets := [] }
      rowInit.expected_amount_usd rowInit.session_id none 50000 deriveConst
      "j2" 1000).state.counter = some 1 ∧
    (generateBitcoinAddress
      { donations := [],
        pendings := [] ++ { rowInit with status := .expired } :: [],
        counter := some 1, genBuckets := [] }
      rowInit.expected_amount_usd rowInit.session_id none 50000 deriveConst
      "j2" 1000).state.pendings
      = [] ++ { rowInit with status := .expired } :: [] ∧
    findPendingByAddress (generateBitcoinAddress
      { donations := [],
        pendings := [] ++ { rowInit with status := .expired } :: [],
        counter := some 1, genBuckets := [] }
      rowInit.expected_amount_usd rowInit.session_id none 50000 deriveConst
      "j2" 1000).state.pendings rowInit.address
      = some { rowInit with status := .expired } :=
  regenerate_returns_client_expired_row [] [] rowInit [] (some 1) [] none
    50000 deriveConst "j2" 1000 (by simp) rfl rfl rfl rfl (by decide)



lemma status_of_same_find {l : List PendingPayment} {a : String}
    {r r' : PendingPayment}
    (h1 : findPendingByAddress l a = some r)
    (h2 : findPendingByAddress l a = some r') : r'.status = r.status := by
  rw [h1] at h2
  injection h2 with h
  rw [h]

lemma status_of_patched_find {l : List PendingPayment} {b a : String}
    {r r' : PendingPayment} {f : PendingPayment → PendingPayment}
    (hf : ∀ p, (f p).address = p.address)
    (h1 : findPendingByAddress l a = some r)
    (h2 : findPendingByAddress (patchPendingByAddress l b f) a = some r') :
    r' = r ∨ (a = b ∧ r' = f r) := by
  rw [find_patch_addr l b a f hf] at h2
  by_cases hab : a = b
  · rw [if_pos hab, h1] at h2
    right
    exact ⟨hab, (Option.some.inj h2).symm⟩
  · rw [if_neg hab, h1] at h2
    left
    exact (Option.some.inj h2).symm

lemma find_append_left {l1 l2 : List PendingPayment} {a : String}
    {r : PendingPayment} (h : findPendingByAddress l1 a = some r) :
    findPendingByAddress (l1 ++ l2) a = some r := by
  unfold findPendingByAddress at h ⊢
  rw [List.find?_append, h]
  rfl

lemma updateWithTx_fst_cases (pendings : List PendingPayment)
    (b tx : String) (now : ℤ) :
    (updatePendingPaymentWithTx pendings b tx now).1 = pendings ∨
    ∃ st, (updatePendingPaymentWithTx pendings b tx now).1
      = patchPendingByAddress pendings b
          (fun p => { p with txid := some tx, detected_at := some now,
                             status := st }) := by
  unfold updatePendingPaymentWithTx
  cases hf : findPendingByAddress pendings b with
  | none => left; rfl
  | some payment =>
    simp only
    by_cases hs : payment.status ≠ PaymentStatus.initialized ∧
        payment.status ≠ PaymentStatus.pending
    · rw [if_pos hs]
      left
      rfl
    · rw [if_neg hs]
      right
      exact ⟨_, rfl⟩



lemma generate_preserves_status (s : DBState) (amount : ℚ)
    (session_id : String) (metadata : Option PaymentMetadata) (price : ℚ)
    (derive : Nat → String) (jobId : String) (now : ℤ) (a : String)
    (r r' : PendingPayment)
    (hfind : findPendingByAddress s.pendings a = some r)
    (hfind' : findPendingByAddress (generateBitcoinAddress s amount session_id
      metadata price derive jobId now).state.pendings a = some r') :
    r'.status = r.status := by
  revert hfind'
  simp only [generateBitcoinAddress]
  split
  · exact fun h' => status_of_same_find hfind h'
  split
  · exact fun h' => status_of_same_find hfind h'
  split
  · exact fun h' => status_of_same_find hfind h'
  split
  · exact fun h' => status_of_same_find hfind h'
  split
  · intro h'
    exact status_of_same_find (find_append_left hfind) h'
  · rename_i pendings3 heq
    intro h'
    have hne : findPendingByAddress (createPendingBitcoinPayment s.pendings
        session_id (derive (getNextDerivationIndex s.counter).2)
        (amount / price) amount price (getNextDerivationIndex s.counter).2
        metadata now) (derive (getNextDerivationIndex s.counter).2) ≠ none := by
      unfold createPendingBitcoinPayment findPendingByAddress
      rw [List.find?_append]
      cases hl : s.pendings.find? (fun p =>
          decide (p.address = derive (getNextDerivationIndex s.counter).2)) with
      | some q => simp [Option.or]
      | none => simp [Option.or]
    rw [updateJobId_ok _ _ _ hne] at heq
    injection heq with heq2
    rw [← heq2] at h'
    rcases @status_of_patched_find
        (createPendingBitcoinPayment s.pendings session_id
          (derive (getNextDerivationIndex s.counter).2) (amount / price) amount
          price (getNextDerivationIndex s.counter).2 metadata now)
        (derive (getNextDerivationIndex s.counter).2) a r r'
        (fun p => { p with scheduled_job_id := some jobId })
        (fun p => rfl) (find_append_left hfind) h'
      with h | ⟨hab, h⟩
    · rw [h]
    · rw [h]



lemma monitor_preserves_terminal (s : DBState) (address : String) (exp : ℚ)
    (now : ℤ) (probe : BlockchainPaymentResult) (network : Network)
    (a : String) (r r' : PendingPayment)
    (hfind : findPendingByAddress s.pendings a = some r)
    (hfind' : findPendingByAddress (monitorSinglePayment s address exp now
      probe network).state.pendings a = some r') :
    r'.status = r.status ∨
      (a = address ∧ ¬ r.status = .confirmed ∧ ¬ r.status = .expired) := by
  revert hfind'
  simp only [monitorSinglePayment]
  split
  · intro h'
    exact Or.inl (status_of_same_find hfind h')
  rename_i pendingPayment heq
  split
  · intro h'
    exact Or.inl (status_of_same_find hfind h')
  rename_i hc
  split
  · intro h'
    exact Or.inl (status_of_same_find hfind h')
  rename_i he
  split
  · intro h'
    dsimp only at h'
    rw [updateStatus_fst] at h'
    rcases @status_of_patched_find s.pendings address a r r'
        (fun p => { p with status := PaymentStatus.expired })
        (fun p => rfl) hfind h' with h | ⟨hab, hr⟩
    · exact Or.inl (by rw [h])
    · refine Or.inr ⟨hab, ?_, ?_⟩
      · rw [hab] at hfind
        rw [hfind] at heq
        rw [Option.some.inj heq]
        exact hc
      · rw [hab] at hfind
        rw [hfind] at heq
        rw [Option.some.inj heq]
        exact he
  · split
    · intro h'
      exact Or.inl (status_of_same_find hfind h')
    · intro h'
      exact Or.inl (status_of_same_find hfind h')
    · intro h'
      dsimp only at h'
      split at h'
      · rcases updateWithTx_fst_cases s.pendings address _ now with hid | ⟨st, hpatch⟩
        · rw [hid] at h'
          exact Or.inl (status_of_same_find hfind h')
        · rw [hpatch] at h'
          rcases @status_of_patched_find s.pendings address a r r'
              (fun p => { p with txid := some _, detected_at := some now,
                                 status := st })
              (fun p => rfl) hfind h' with h | ⟨hab, hr⟩
          · exact Or.inl (by rw [h])
          · refine Or.inr ⟨hab, ?_, ?_⟩
            · rw [hab] at hfind
              rw [hfind] at heq
              rw [Option.some.inj heq]
              exact hc
            · rw [hab] at hfind
              rw [hfind] at heq
              rw [Option.some.inj heq]
              exact he
      · exact Or.inl (status_of_same_find hfind h')
    · split
      · intro h'
        dsimp only at h'
        split at h'
        · rcases updateWithTx_fst_cases s.pendings address _ now with hid | ⟨st, hpatch⟩
          · rw [hid] at h'
            exact Or.inl (status_of_same_find hfind h')
          · rw [hpatch] at h'
            rcases @status_of_patched_find s.pendings address a r r'
                (fun p => { p with txid := some _, detected_at := some now,
                                   status := st })
                (fun p => rfl) hfind h' with h | ⟨hab, hr⟩
            · exact Or.inl (by rw [h])
            · refine Or.inr ⟨hab, ?_, ?_⟩
              · rw [hab] at hfind
                rw [hfind] at heq
                rw [Option.some.inj heq]
                exact hc
              · rw [hab] at hfind
                rw [hfind] at heq
                rw [Option.some.inj heq]
                exact he
        · exact Or.inl (status_of_same_find hfind h')
      · split
        · intro h'
          dsimp only at h'
          rw [updateStatus_fst] at h'
          rcases @status_of_patched_find s.pendings address a r r'
              (fun p => { p with status := PaymentStatus.expired })
              (fun p => rfl) hfind h' with h | ⟨hab, hr⟩
          · exact Or.inl (by rw [h])
          · refine Or.inr ⟨hab, ?_, ?_⟩
            · rw [hab] at hfind
              rw [hfind] at heq
              rw [Option.some.inj heq]
              exact hc
            · rw [hab] at hfind
              rw [hfind] at heq
              rw [Option.some.inj heq]
              exact he
        · intro h'
          dsimp only at h'
          rw [updateStatus_fst] at h'
          rcases @status_of_patched_find s.pendings address a r r'
              (fun p => { p with status := PaymentStatus.confirmed })
              (fun p => rfl) hfind h' with h | ⟨hab, hr⟩
          · exact Or.inl (by rw [h])
          · refine Or.inr ⟨hab, ?_, ?_⟩
            · rw [hab] at hfind
              rw [hfind] at heq
              rw [Option.some.inj heq]
              exact hc
            · rw [hab] at hfind
              rw [hfind] at heq
              rw [Option.some.inj heq]
              exact he



lemma check_preserves_terminal (s : DBState) (address session_id : String)
    (expected : Option ℚ) (metadata : Option PaymentMetadata) (now : ℤ)
    (probe : BlockchainPaymentResult) (price : ℚ) (network : Network)
    (a : String) (r r' : PendingPayment)
    (hfind : findPendingByAddress s.pendings a = some r)
    (hfind' : findPendingByAddress (checkBitcoinPayment s address session_id
      expected metadata now probe price network).state.pendings a = some r') :
    r'.status = r.status ∨ r'.status = .confirmed := by
  revert hfind'
  simp only [checkBitcoinPayment]
  split
  · intro h'
    exact Or.inl (status_of_same_find hfind h')
  split
  · intro h'
    exact Or.inl (status_of_same_find hfind h')
  split
  · intro h'
    exact Or.inl (status_of_same_find hfind h')
  · intro h'
    exact Or.inl (status_of_same_find hfind h')
  · intro h'
    exact Or.inl (status_of_same_find hfind h')
  · split
    · intro h'
      exact Or.inl (status_of_same_find hfind h')
    · split
      · intro h'
        exact Or.inl (status_of_same_find hfind h')
      · split
        · intro h'
          exact Or.inl (status_of_same_find hfind h')
        · intro h'
          dsimp only at h'
          rw [updateStatus_fst] at h'
          rcases @status_of_patched_find s.pendings address a r r'
              (fun p => { p with status := PaymentStatus.confirmed })
              (fun p => rfl) hfind h' with h | ⟨hab, hr⟩
          · exact Or.inl (by rw [h])
          · right
            rw [hr]

lemma markExpired_fst_cases (pendings : List PendingPayment) (b sess : String)
    (out : List PendingPayment × Bool)
    (hok : markPaymentExpired pendings b sess = .ok out) :
    out.1 = pendings ∨
    ∃ rr, findPendingByAddress pendings b = some rr ∧
      rr.status = .initialized ∧
      out.1 = patchPendingByAddress pendings b
        (fun p => { p with status := .expired }) := by
  revert hok
  unfold markPaymentExpired
  split
  · intro hok
    injection hok with h
    left
    rw [← h]
  · rename_i payment heq
    split
    · intro hok
      cases hok
    · split
      · intro hok
        injection hok with h
        right
        exact ⟨payment, heq, by assumption, by rw [← h]⟩
      · intro hok
        injection hok with h
        left
        rw [← h]




lemma cleanupTransform_addr (now : ℤ) (p : PendingPayment) :
    (cleanupTransform now p).address = p.address := by
  unfold cleanupTransform
  by_cases h1 : p.status = PaymentStatus.initialized ∧ p.expires_at < now
  · simp only [if_pos h1]
    split <;> rfl
  · simp only [if_neg h1]
    split <;> rfl

lemma cleanupTransform_confirmed (now : ℤ) (p : PendingPayment)
    (h : p.status = .confirmed) : cleanupTransform now p = p := by
  unfold cleanupTransform
  rw [if_neg, if_neg] <;> simp [h]

lemma cleanupTransform_expired (now : ℤ) (p : PendingPayment)
    (h : p.status = .expired) : cleanupTransform now p = p := by
  unfold cleanupTransform
  rw [if_neg, if_neg] <;> simp [h]

lemma cleanup_mem (l : List PendingPayment) (now : ℤ) :
    ∀ x ∈ (cleanupExpiredPendingPayments l now).1,
      ∃ y ∈ l, x = cleanupTransform now y := by
  intro x hx
  unfold cleanupExpiredPendingPayments at hx
  simp only at hx
  have hx3 := (List.mem_filter.mp hx).1
  have hx2 := (List.mem_filter.mp hx3).1
  rcases List.mem_map.mp hx2 with ⟨z, hz, hzeq⟩
  rcases List.mem_map.mp hz with ⟨y, hy, hyeq⟩
  refine ⟨y, hy, ?_⟩
  rw [← hzeq, ← hyeq]
  rfl

lemma cleanup_preserves_terminal (s : DBState) (now : ℤ) (a : String)
    (r r' : PendingPayment)
    (hnodup : (s.pendings.map (fun p => p.address)).Nodup)
    (hfind : findPendingByAddress s.pendings a = some r)
    (hfind' : findPendingByAddress
      (cleanupExpiredPendingPayments s.pendings now).1 a = some r') :
    (r.status = .confirmed → r'.status = .confirmed) ∧
    (r.status = .expired → r'.status = .expired) := by
  have hr'mem : r' ∈ (cleanupExpiredPendingPayments s.pendings now).1 :=
    List.mem_of_find?_eq_some hfind'
  have hr'addr : r'.address = a := by
    have := List.find?_some hfind'
    simpa using this
  have hraddr : r.address = a := by
    have := List.find?_some hfind
    simpa using this
  have hrmem : r ∈ s.pendings := List.mem_of_find?_eq_some hfind
  rcases cleanup_mem s.pendings now r' hr'mem with ⟨y, hy, hyeq⟩
  have hyaddr : y.address = r.address := by
    rw [hraddr, ← hr'addr, hyeq, cleanupTransform_addr]
  have hyr : y = r := List.inj_on_of_nodup_map hnodup hy hrmem hyaddr
  subst hyr
  constructor
  · intro hcon
    rw [hyeq, cleanupTransform_confirmed now y hcon, hcon]
  · intro hexp
    rw [hyeq, cleanupTransform_expired now y hexp, hexp]



/-- C2 as amended: over states whose pending rows carry pairwise distinct
addresses, a `confirmed` status survives every entry-point invocation
unchanged; an `expired` status survives every invocation that is not a
`checkBitcoinPayment` call — the Monitor wake-up, `markPaymentExpired`,
the cleanup cron and `generateBitcoinAddress` all leave it `expired`, and
the tx-attaching mutation is a strict no-op on any terminal row — while
`checkBitcoinPayment` alone can flip an expired row back to `confirmed`
when its probe reports a sufficiently confirmed transaction (the original
monotonicity claim fails there, see the counterexample). -/
theorem terminal_status_amended (s : DBState) (op : Op) (a : String)
    (r r' : PendingPayment) (tx : String) (t : ℤ)
    (hnodup : (s.pendings.map (fun p => p.address)).Nodup)
    (hfind : findPendingByAddress s.pendings a = some r)
    (hfind' : findPendingByAddress (step s op).pendings a = some r') :
    (r.status = .confirmed → r'.status = .confirmed) ∧
    (r.status = .expired → Op.isCheck op = false → r'.status = .expired) ∧
    (r.status = .expired → r'.status = .expired ∨ r'.status = .confirmed) ∧
    (r.status = .confirmed ∨ r.status = .expired →
      updatePendingPaymentWithTx s.pendings a tx t = (s.pendings, false)) := by
  have h4 : r.status = .confirmed ∨ r.status = .expired →
      updatePendingPaymentWithTx s.pendings a tx t = (s.pendings, false) :=
    fun hst => updateWithTx_terminal s.pendings a tx t r hfind hst
  refine ⟨?_, ?_, ?_, h4⟩ <;> clear h4
  case _ =>
    cases op with
    | generateOp amount session_id metadata price derive jobId now =>
      have h := generate_preserves_status s amount session_id metadata price
        derive jobId now a r r' hfind hfind'
      exact fun hc => by rw [h, hc]
    | monitorOp address exp now probe network =>
      rcases monitor_preserves_terminal s address exp now probe network a r r'
        hfind hfind' with h | ⟨_, hc, _⟩
      · exact fun x => by rw [h, x]
      · exact fun x => absurd x hc
    | checkOp address session_id expected metadata now probe price network =>
      rcases check_preserves_terminal s address session_id expected metadata
        now probe price network a r r' hfind hfind' with h | h
      · exact fun x => by rw [h, x]
      · exact fun _ => h
    | markExpiredOp address session_id =>
      revert hfind'
      simp only [step]
      split
      · rename_i out hok
        intro hfind'
        rcases markExpired_fst_cases s.pendings address session_id out hok with
          hsame | ⟨rr, hfr, hinit, hpatch⟩
        · rw [hsame] at hfind'
          have h := status_of_same_find hfind hfind'
          exact fun x => by rw [h, x]
        · rw [hpatch] at hfind'
          rcases @status_of_patched_find s.pendings address a r r'
              (fun p => { p with status := PaymentStatus.expired })
              (fun p => rfl) hfind hfind' with h | ⟨hab, hr⟩
          · exact fun x => by rw [h, x]
          · rw [hab] at hfind
            rw [hfind] at hfr
            have hrr : rr = r := (Option.some.inj hfr).symm
            rw [hrr] at hinit
            intro x
            rw [hinit] at x
            cases x
      · intro hfind'
        have h := status_of_same_find hfind hfind'
        exact fun x => by rw [h, x]
    | cleanupOp now =>
      exact (cleanup_preserves_terminal s now a r r' hnodup hfind hfind').1
  case _ =>
    cases op with
    | generateOp amount session_id metadata price derive jobId now =>
      have h := generate_preserves_status s amount session_id metadata price
        derive jobId now a r r' hfind hfind'
      exact fun he _ => by rw [h, he]
    | monitorOp address exp now probe network =>
      rcases monitor_preserves_terminal s address exp now probe network a r r'
        hfind hfind' with h | ⟨_, _, he⟩
      · exact fun x _ => by rw [h, x]
      · exact fun x _ => absurd x he
    | checkOp address session_id expected metadata now probe price network =>
      intro _ hck
      exact absurd hck (by simp [Op.isCheck])
    | markExpiredOp address session_id =>
      revert hfind'
      simp only [step]
      split
      · rename_i out hok
        intro hfind'
        rcases markExpired_fst_cases s.pendings address session_id out hok with
          hsame | ⟨rr, hfr, hinit, hpatch⟩
        · rw [hsame] at hfind'
          have h := status_of_same_find hfind hfind'
          exact fun x _ => by rw [h, x]
        · rw [hpatch] at hfind'
          rcases @status_of_patched_find s.pendings address a r r'
              (fun p => { p with status := PaymentStatus.expired })
              (fun p => rfl) hfind hfind' with h | ⟨hab, hr⟩
          · exact fun x _ => by rw [h, x]
          · rw [hab] at hfind
            rw [hfind] at hfr
            have hrr : rr = r := (Option.some.inj hfr).symm
            rw [hrr] at hinit
            intro x _
            rw [hinit] at x
            cases x
      · intro hfind'
        have h := status_of_same_find hfind hfind'
        exact fun x _ => by rw [h, x]
    | cleanupOp now =>
      exact fun x _ =>
        (cleanup_preserves_terminal s now a r r' hnodup hfind hfind').2 x
  case _ =>
    cases op with
    | generateOp amount session_id metadata price derive jobId now =>
      have h := generate_preserves_status s amount session_id metadata price
        derive jobId now a r r' hfind hfind'
      exact fun he => Or.inl (by rw [h, he])
    | monitorOp address exp now probe network =>
      rcases monitor_preserves_terminal s address exp now probe network a r r'
        hfind hfind' with h | ⟨_, _, he⟩
      · exact fun x => Or.inl (by rw [h, x])
      · exact fun x => absurd x he
    | checkOp address session_id expected metadata now probe price network =>
      rcases check_preserves_terminal s address session_id expected metadata
        now probe price network a r r' hfind hfind' with h | h
      · exact fun x => Or.inl (by rw [h, x])
      · exact fun _ => Or.inr h
    | markExpiredOp address session_id =>
      revert hfind'
      simp only [step]
      split
      · rename_i out hok
        intro hfind'
        rcases markExpired_fst_cases s.pendings address session_id out hok with
          hsame | ⟨rr, hfr, hinit, hpatch⟩
        · rw [hsame] at hfind'
          have h := status_of_same_find hfind hfind'
          exact fun x => Or.inl (by rw [h, x])
        · rw [hpatch] at hfind'
          rcases @status_of_patched_find s.pendings address a r r'
              (fun p => { p with status := PaymentStatus.expired })
              (fun p => rfl) hfind hfind' with h | ⟨hab, hr⟩
          · exact fun x => Or.inl (by rw [h, x])
          · rw [hab] at hfind
            rw [hfind] at hfr
            have hrr : rr = r := (Option.some.inj hfr).symm
            rw [hrr] at hinit
            intro x
            rw [hinit] at x
            cases x
      · intro hfind'
        have h := status_of_same_find hfind hfind'
        exact fun x => Or.inl (by rw [h, x])
    | cleanupOp now =>
      exact fun x =>
        Or.inl ((cleanup_preserves_terminal s now a r r' hnodup hfind hfind').2 x)


/-- Witness for C2's amended theorem: `markPaymentExpired` leaves the
expired row of `sExpiredManual` untouched, and attaching a transaction to
that expired row is a strict no-op. -/
theorem terminal_status_amended_witness :
    (rowExpired.status = .confirmed → rowExpired.status = .confirmed) ∧
    (rowExpired.status = .expired →
      Op.isCheck (.markExpiredOp addr42 "s1") = false →
      rowExpired.status = .expired) ∧
    (rowExpired.status = .expired →
      rowExpired.status = .expired ∨ rowExpired.status = .confirmed) ∧
    (rowExpired.status = .confirmed ∨ rowExpired.status = .expired →
      updatePendingPaymentWithTx sExpiredManual.pendings addr42 "t2" 7
        = (sExpiredManual.pendings, false)) :=
  terminal_status_amended sExpiredManual (.markExpiredOp addr42 "s1") addr42
    rowExpired rowExpired "t2" 7 (by decide) rfl rfl

end RadBitcoin
